import Mathlib

/-
Verification development for the box2docx content-tree-to-document transpiler
(src/box2docx.py).  The Python source is shallowly embedded below:

* pure helper functions (ordinal markers, hex-colour parsing, table geometry)
  become Lean functions with the same names;
* the recursive content walker, which in the source mutates module-level
  globals, becomes explicit state passing over a `WState` record;
* fallible Python operations (dict/key access, `list.pop` on an empty list,
  `int(_, 16)` on a bad string, string concatenation with `None`) become
  `Except PyErr` results;
* the word-processing document is modelled at the level of the abstract
  Document Sink: an ordered list of paragraphs, each an ordered list of runs
  with style fields.  Recursion is bounded by an explicit depth fuel so that
  every definition stays structurally recursive and kernel-computable; the
  source recursion always terminates on finite trees, and all theorems either
  quantify over the fuel or use a fuel that covers the concrete input.
-/

set_option autoImplicit false

deriving instance DecidableEq for Except

namespace Box2Docx

/-- Abstract Python-level failure conditions surfaced by the embedded code. -/
inductive PyErr where
  /-- KeyError: a mandatory dictionary key is missing. -/
  | keyError
  /-- IndexError: sequence index out of range, including `list.pop` on an empty list. -/
  | indexError
  /-- ValueError: `int(s, 16)` or `float(s)` applied to a malformed string. -/
  | valueError
  /-- TypeError: string concatenation with `None`. -/
  | typeError
  /-- AttributeError: attribute access on `None`. -/
  | attributeError
  /-- Error raised by the external `roman` library for out-of-range inputs. -/
  | romanOutOfRange
  /-- Recursion fuel exhausted; never occurs when the fuel covers the tree depth. -/
  | fuelExhausted
  /-- Marker for the table-emission arm of the walker, which is covered by the
  standalone table-geometry embedding rather than by the walker model. -/
  | tableUnmodelled
  deriving DecidableEq, Repr

/-! ## Ordinal formatter (`get_ordered_list_char` and the `roman` library) -/

/-- Repeat a string `k` times (used to model the greedy roman-numeral loop). -/
def repeatStr (s : String) : Nat → String
  | 0 => ""
  | k + 1 => s ++ repeatStr s k

/-- Descending value table of the external `roman` library. -/
def romanPairs : List (Nat × String) :=
  [(1000, "M"), (900, "CM"), (500, "D"), (400, "CD"), (100, "C"), (90, "XC"),
   (50, "L"), (40, "XL"), (10, "X"), (9, "IX"), (5, "V"), (4, "IV"), (1, "I")]

/-- Greedy descent over the value table.  The library's `while n >= value`
loop appends the symbol `n / value` times and continues with `n % value`,
which is exactly this fold. -/
def toRomanGo : List (Nat × String) → Nat → String
  | [], _ => ""
  | (v, s) :: rest, n => repeatStr s (n / v) ++ toRomanGo rest (n % v)

/-- Model of `roman.toRoman`: fails outside the library's supported range. -/
def toRoman (n : Nat) : Except PyErr String :=
  if 0 < n ∧ n < 4000 then .ok (toRomanGo romanPairs n) else .error .romanOutOfRange

/-- Lowercasing, as in `roman.toRoman(x).lower()`. -/
def pyLower (s : String) : String := String.mk (s.toList.map Char.toLower)

/-- Base-26 digit loop of `get_ordered_list_char`'s letters branch:
`while n > 0: digits.insert(0, n % 26); n = n // 26`.  The loop runs at most
`n` times, so `n` itself serves as structural fuel. -/
def base26DigitsGo : Nat → Nat → List Nat
  | 0, _ => []
  | _ + 1, 0 => []
  | fuel + 1, n + 1 => base26DigitsGo fuel ((n + 1) / 26) ++ [(n + 1) % 26]

/-- Digits of `n` produced by the source's base-26 loop (most significant first).
Note this is plain base 26: a digit can be `0`, which the letters branch then
maps to `chr(96)`, the backtick character. -/
def base26Digits (n : Nat) : List Nat := base26DigitsGo n n

/-- Embedding of `get_ordered_list_char(ordered_list_level, list_depth)`.
`Except` is needed because the roman branch calls the external library, which
raises outside its range. -/
def get_ordered_list_char (ordered_list_level : Nat) (list_depth : Nat) :
    Except PyErr String :=
  let a := ordered_list_level % 3
  if a = 1 then
    .ok (toString list_depth ++ ".")
  else if a = 2 then
    let digits := base26Digits list_depth
    let char := String.mk (digits.map fun digit => Char.ofNat (digit + 96))
    .ok (char ++ ".")
  else do
    let r ← toRoman list_depth
    .ok (pyLower r ++ ".")

/-! ## Style mapper (`get_color_from_hex`, `get_pt_from_em`, maps) -/

/-- Value of a single hexadecimal digit, accepting both cases. -/
def hexDigitVal (c : Char) : Option Nat :=
  if '0' ≤ c ∧ c ≤ '9' then some (c.toNat - '0'.toNat)
  else if 'a' ≤ c ∧ c ≤ 'f' then some (c.toNat - 'a'.toNat + 10)
  else if 'A' ≤ c ∧ c ≤ 'F' then some (c.toNat - 'A'.toNat + 10)
  else none

/-- Model of Python `int(s, 16)` on a character list: fails on the empty
string or on any non-hex character.  (CPython additionally strips whitespace
and accepts a sign and underscores; none of those forms reach this call.) -/
def pyIntHex (cs : List Char) : Except PyErr Nat :=
  match cs with
  | [] => .error .valueError
  | _ =>
    cs.foldl (fun acc c =>
      match acc, hexDigitVal c with
      | .ok v, some d => .ok (v * 16 + d)
      | _, _ => .error .valueError) (.ok 0)

/-- Embedding of `get_color_from_hex(hex)`.  Python strings are modelled as
their character lists, so the slices `hex[1:3]`, `hex[3:5]`, `hex[5:7]` become
`drop`/`take` on `s.toList` (both clamp silently, like Python slicing).
Nothing inspects the first character or the total length. -/
def get_color_from_hex (hex : String) : Except PyErr (Nat × Nat × Nat) := do
  let cs := hex.toList
  let r ← pyIntHex ((cs.drop 1).take 2)
  let g ← pyIntHex ((cs.drop 3).take 2)
  let b ← pyIntHex ((cs.drop 5).take 2)
  .ok (r, g, b)

/-! ## Data model: content nodes and marks -/

/-- Attributes of a mark object (`mark_obj["attrs"]`); every field optional,
mirroring dictionary-key presence. -/
structure MarkAttrs where
  size : Option String := none
  color : Option String := none
  href : Option String := none
  alignment : Option String := none
  deriving DecidableEq, Repr

/-- An inline mark `{ type, attrs? }`.  The type is kept as the raw string the
source dispatches on; a missing type key is `none`. -/
structure Mark where
  type : Option String := none
  attrs : Option MarkAttrs := none
  deriving DecidableEq, Repr

/-- Attributes of a content node (`content_obj["attrs"]`); the union of the
attribute keys the source reads, each optional. -/
structure Attrs where
  level : Option Nat := none
  checked : Option Bool := none
  fileName : Option String := none
  rowspan : Option Nat := none
  colspan : Option Nat := none
  backgroundColor : Option String := none
  emoji : Option String := none
  deriving DecidableEq, Repr

/-- A content node `{ type?, attrs?, content?, text?, marks? }`.  Each `Option`
models presence of the corresponding JSON key. -/
inductive Node where
  | mk (type : Option String) (attrs : Option Attrs) (content : Option (List Node))
      (text : Option String) (marks : Option (List Mark))

/-- The node's `type` key. -/
def Node.type : Node → Option String
  | .mk t _ _ _ _ => t

/-- The node's `attrs` key. -/
def Node.attrs : Node → Option Attrs
  | .mk _ a _ _ _ => a

/-- The node's `content` key. -/
def Node.content : Node → Option (List Node)
  | .mk _ _ c _ _ => c

/-- The node's `text` key. -/
def Node.text : Node → Option String
  | .mk _ _ _ tx _ => tx

/-- The node's `marks` key. -/
def Node.marks : Node → Option (List Mark)
  | .mk _ _ _ _ m => m

/-! ## Table geometry resolver -/

/-- Per-cell step of the first-row column sum of `get_table_dimensions`: a
first-row child contributes its `colspan` only when it is typed `table_cell`
and carries an `attrs` mapping with a `colspan` key. -/
def dims_cols_step (acc : Nat) (row_obj : Node) : Nat :=
  match row_obj.type, row_obj.attrs with
  | some t, some a =>
    if t = "table_cell" then
      match a.colspan with
      | some c => acc + c
      | none => acc
    else acc
  | _, _ => acc

/-- Embedding of `get_table_dimensions(content_obj)`: the row count is the
number of children of the table node (whatever their type), and the column
count sums `colspan` over first-row children that are typed `table_cell` and
carry an `attrs` mapping with a `colspan` key.  A child without `colspan`
contributes nothing.  Missing `content` keys and an empty row list surface the
source's KeyError/IndexError. -/
def get_table_dimensions (content_obj : Node) : Except PyErr (Nat × Nat) :=
  match content_obj.content with
  | none => .error .keyError
  | some row_objs =>
    match row_objs with
    | [] => .error .indexError
    | row0 :: _ =>
      match row0.content with
      | none => .error .keyError
      | some first_row_cells =>
        let num_cols := first_row_cells.foldl dims_cols_step 0
        .ok (row_objs.length, num_cols)

/-- Embedding of `get_cell_tracking_table(r, c)`: an `r × c` occupancy grid,
initially all free (`false`). -/
def get_cell_tracking_table (r c : Nat) : List (List Bool) :=
  List.replicate r (List.replicate c false)

/-- Embedding of `get_table_cell_objs(content_obj)`: flattens the cells of the
children typed `table_row`, keeping declared row-major order; a row missing its
`content` key raises KeyError in the source. -/
def get_table_cell_objs (content_obj : Node) : Except PyErr (List Node) :=
  match content_obj.content with
  | none => .error .keyError
  | some rows => go rows
where
  /-- Row-by-row cell collection. -/
  go : List Node → Except PyErr (List Node)
  | [] => .ok []
  | r :: rest =>
    if r.type = some "table_row" then
      match r.content with
      | none => .error .keyError
      | some row_cells =>
        match go rest with
        | .error e => .error e
        | .ok tail => .ok (row_cells.filter (fun c => c.type == some "table_cell") ++ tail)
    else go rest

/-- Occupancy grids are lists of boolean rows. -/
abbrev Grid := List (List Bool)

/-- Read `cell_tracking[i][j]`.  Loop-generated indices are always in range;
the out-of-range default `true` (occupied) is never consulted there. -/
def gridLookup (grid : Grid) (i j : Nat) : Bool :=
  (grid.getD i []).getD j true

/-- Write `cell_tracking[i][j] = True`, raising IndexError when out of range,
as Python list assignment does. -/
def setCellE (grid : Grid) (i j : Nat) : Except PyErr Grid :=
  match grid.get? i with
  | none => .error .indexError
  | some row =>
    match row.get? j with
    | none => .error .indexError
    | some _ => .ok (grid.set i (row.set j true))

/-- Mark the `rowspan × colspan` rectangle with corner `(i, j)` occupied
(the source's two nested `for i_r in range(i_row, i_row + rowspan)` loops). -/
def markRect (grid : Grid) (i j rowspan colspan : Nat) : Except PyErr Grid :=
  (List.range rowspan).foldlM (fun g dr =>
    (List.range colspan).foldlM (fun g2 dc => setCellE g2 (i + dr) (j + dc)) g) grid

/-- State threaded through the merge scan: the occupancy grid, the not yet
popped declaration queue, the merge instructions discovered so far (insertion
order of the source's dict), and the origins assigned to popped declarations in
pop order (the source records these by writing `row_idx`/`col_idx` onto the
popped cell objects). -/
structure MState where
  cell_tracking : Grid
  queue : List Node
  cell_merges : List ((Nat × Nat) × (Nat × Nat))
  assigns : List (Nat × Nat)

/-- Row span of a popped cell declaration: `attrs["rowspan"]` when the
`attrs` mapping and key are present, 1 otherwise. -/
def rowspanOf (table_cell_obj : Node) : Nat :=
  match table_cell_obj.attrs with
  | some a => match a.rowspan with | some v => v | none => 1
  | none => 1

/-- Column span of a popped cell declaration, defaulting to 1 like the row
span. -/
def colspanOf (table_cell_obj : Node) : Nat :=
  match table_cell_obj.attrs with
  | some a => match a.colspan with | some v => v | none => 1
  | none => 1

/-- One iteration of the scan body of `get_table_cell_merges` at grid position
`(i_row, i_col)`: occupied cells are skipped; a free cell is marked occupied,
the next declaration is popped (IndexError when the queue is exhausted) and
assigned this origin, spans default to 1, and a span exceeding 1×1 records a
merge instruction and marks its full extent occupied. -/
def merge_scan_step (st : MState) (pos : Nat × Nat) : Except PyErr MState :=
  let i_row := pos.1
  let i_col := pos.2
  if gridLookup st.cell_tracking i_row i_col then .ok st
  else
    match setCellE st.cell_tracking i_row i_col with
    | .error e => .error e
    | .ok grid1 =>
      match st.queue with
      | [] => .error .indexError
      | table_cell_obj :: queue_rest =>
        let rowspan := rowspanOf table_cell_obj
        let colspan := colspanOf table_cell_obj
        if rowspan > 1 ∨ colspan > 1 then
          match markRect grid1 i_row i_col rowspan colspan with
          | .error e => .error e
          | .ok grid2 =>
            .ok ⟨grid2, queue_rest,
                 st.cell_merges ++ [((i_row, i_col), (rowspan, colspan))],
                 st.assigns ++ [(i_row, i_col)]⟩
        else
          .ok ⟨grid1, queue_rest, st.cell_merges, st.assigns ++ [(i_row, i_col)]⟩

/-- Row-major enumeration of the grid's coordinates, i.e. the index pairs the
source's two nested `for` loops run through (ranges are taken over the initial
grid, whose shape never changes during the scan). -/
def gridPositions (grid : Grid) : List (Nat × Nat) :=
  (List.range grid.length).flatMap fun i =>
    (List.range (grid.getD i []).length).map fun j => (i, j)

/-- The scan loop: run `merge_scan_step` over the remaining positions,
stopping at the first error. -/
def merge_scan : MState → List (Nat × Nat) → Except PyErr MState
  | st, [] => .ok st
  | st, p :: rest =>
    match merge_scan_step st p with
    | .error e => .error e
    | .ok st' => merge_scan st' rest

/-- Embedding of `get_table_cell_merges(cell_tracking, table_cell_objs)`.  The
source copies the declaration list, reverses it and pops from the end, which
consumes the declarations front to back; here the queue is consumed by head.
The result carries the merge instructions together with the final grid, the
unconsumed declarations and the assigned origins. -/
def get_table_cell_merges (cell_tracking : Grid) (table_cell_objs : List Node) :
    Except PyErr MState :=
  merge_scan ⟨cell_tracking, table_cell_objs, [], []⟩ (gridPositions cell_tracking)

/-! ## Document sink model

The concrete python-docx object model is external to the core (spec §1, §6);
it is modelled here at the level of the abstract Document Sink: a document is
an ordered list of paragraphs, each an ordered list of runs with style fields.
Tables created for callouts and code blocks are flattened to their cell
paragraphs, and `current_paragraph` becomes an index into the paragraph list.
Mutations that happen before an exception are unobservable in the source
(the document is only saved after a fully successful walk), so the `Except`
embedding, which drops the partial state on error, agrees with the source on
every observable outcome. -/

/-- Paragraph alignment values used by the source. -/
inductive Align where
  | left
  | center
  | right
  | justify
  deriving DecidableEq, Repr

/-- A styled run as seen through the Document Sink interface. -/
structure DRun where
  text : String := ""
  bold : Bool := false
  italic : Bool := false
  underline : Bool := false
  strike : Bool := false
  font_color : Option (Nat × Nat × Nat) := none
  highlight_color : Option String := none
  font_size : Option Nat := none
  font_name : Option String := none
  hyperlink : Option String := none
  background_shade : Option String := none
  picture : Option String := none
  deriving DecidableEq, Repr

/-- A paragraph: runs plus paragraph-level styling.  `cell_shade` records the
background colour of the (flattened) single-cell table holding the paragraph,
`bottom_border` the horizontal-rule border. -/
structure Para where
  runs : List DRun := []
  alignment : Align := .left
  bottom_border : Bool := false
  cell_shade : Option String := none
  deriving DecidableEq, Repr

/-- The traversal context: the source's module-level globals made explicit,
plus the flattened document and the Image Resolver boundary (an association
of image file names to resolved paths, standing in for the filesystem
search of `get_image_path`). -/
structure WState where
  paragraphs : List Para := []
  cur : Option Nat := none
  current_table_cell : Option Nat := none
  use_table_cell_paragraph : Bool := false
  list_type : Option String := none
  list_depths : List (Nat × Nat) := []
  bullet_list_level : Nat := 0
  ordered_list_level : Nat := 0
  check_list_level : Nat := 0
  in_bullet_list_item : Bool := false
  in_ordered_list_item : Bool := false
  in_check_list_item : Bool := false
  is_check_list_item_checked : Bool := false
  in_callout : Bool := false
  callout_emoji : Option String := none
  callout_bg_color : Option String := none
  in_code_block : Bool := false
  image_lookup : List (String × String) := []
  deriving DecidableEq, Repr

/-- Model of Python string concatenation with the shadow accumulator on the
left: concatenating onto `None` raises TypeError. -/
def pyAdd (out : Option String) (s : String) : Except PyErr String :=
  match out with
  | some t => .ok (t ++ s)
  | none => .error .typeError

/-- Python dictionary read `d[k]`: KeyError when the key is absent. -/
def pyDictGet : List (Nat × Nat) → Nat → Except PyErr Nat
  | [], _ => .error .keyError
  | (k', v) :: rest, k => if k = k' then .ok v else pyDictGet rest k

/-- Python dictionary write `d[k] = v`: update in place or append. -/
def pyDictSet : List (Nat × Nat) → Nat → Nat → List (Nat × Nat)
  | [], k, v => [(k, v)]
  | (k', v') :: rest, k, v =>
    if k = k' then (k', v) :: rest else (k', v') :: pyDictSet rest k v

/-- `document.add_paragraph()` (and `cell.add_paragraph()` in the flattened
model): append a fresh paragraph and make it current. -/
def add_paragraph (st : WState) : WState :=
  { st with paragraphs := st.paragraphs ++ [({} : Para)], cur := some st.paragraphs.length }

/-- `current_paragraph.add_run(...)`: attribute access on `None` raises. -/
def add_run_cur (st : WState) (r : DRun) : Except PyErr WState :=
  match st.cur with
  | none => .error .attributeError
  | some i =>
    match st.paragraphs.get? i with
    | none => .error .indexError
    | some p =>
      .ok { st with paragraphs := st.paragraphs.set i { p with runs := p.runs ++ [r] } }

/-- Add `n` copies of the same run (the indentation loops). -/
def add_runs_n (st : WState) (r : DRun) : Nat → Except PyErr WState
  | 0 => .ok st
  | k + 1 =>
    match add_run_cur st r with
    | .error e => .error e
    | .ok st' => add_runs_n st' r k

/-- `current_paragraph.alignment = ...`. -/
def set_alignment_cur (st : WState) (al : Align) : Except PyErr WState :=
  match st.cur with
  | none => .error .attributeError
  | some i =>
    match st.paragraphs.get? i with
    | none => .error .indexError
    | some p => .ok { st with paragraphs := st.paragraphs.set i { p with alignment := al } }

/-- Apply a style update to every run of the current paragraph (the heading
handler's `for run in current_paragraph.runs` loop). -/
def map_runs_cur (st : WState) (f : DRun → DRun) : Except PyErr WState :=
  match st.cur with
  | none => .error .attributeError
  | some i =>
    match st.paragraphs.get? i with
    | none => .error .indexError
    | some p => .ok { st with paragraphs := st.paragraphs.set i { p with runs := p.runs.map f } }

/-- `insert_horizontal_rule(current_paragraph)`: set a bottom border. -/
def set_bottom_border_cur (st : WState) : Except PyErr WState :=
  match st.cur with
  | none => .error .attributeError
  | some i =>
    match st.paragraphs.get? i with
    | none => .error .indexError
    | some p => .ok { st with paragraphs := st.paragraphs.set i { p with bottom_border := true } }

/-- The indentation unit `INDENT`. -/
def INDENT : String := "    "

/-- `heading_level_to_size_map` (point sizes, keyed by the stringified level). -/
def heading_level_to_size_map : List (String × Nat) := [("1", 28), ("2", 20), ("3", 16)]

/-- `highlight_map`: the fixed Box-to-Word highlight palette; values are the
names of the `WD_COLOR_INDEX` enum members. -/
def highlight_map : List (String × String) :=
  [("#fdf0d1", "YELLOW"), ("#d4f3e6", "BRIGHT_GREEN"), ("#ecd9fb", "PINK"),
   ("#fce6d1", "GRAY_50"), ("#ccdff7", "TURQUOISE"), ("#fbd7dd", "RED"),
   ("#e8e8e8", "GRAY_25")]

/-- Digit-string value (base 10); `none` on a non-digit.  The empty list maps
to `some 0` and emptiness is checked separately by the caller. -/
def digitsToNat (cs : List Char) : Option Nat :=
  cs.foldl (fun acc c =>
    match acc, c.isDigit with
    | some v, true => some (v * 10 + (c.toNat - 48))
    | _, _ => none) (some 0)

/-- Model of Python `float(s)` restricted to plain decimal literals
`digits [. digits]` (the only shapes font sizes take); the result is returned
as `(value scaled by 10 ^ scale, scale)` to keep the arithmetic in `Nat`.
Exponent/sign/whitespace forms accepted by CPython are not modelled. -/
def parseDecimal (cs : List Char) : Option (Nat × Nat) :=
  let intPart := cs.takeWhile (fun c => c ≠ '.')
  let rest := cs.dropWhile (fun c => c ≠ '.')
  match rest with
  | [] => if intPart.isEmpty then none else (digitsToNat intPart).map (fun v => (v, 0))
  | _ :: frac =>
    if frac.contains '.' then none
    else if intPart.isEmpty ∧ frac.isEmpty then none
    else
      match digitsToNat intPart, digitsToNat frac with
      | some i, some f => some (i * 10 ^ frac.length + f, frac.length)
      | _, _ => none

/-- Embedding of `get_pt_from_em(em)`: strip the two-character unit suffix,
parse the decimal, floor-divide by the magic ratio `0.083646`.  The exact
rational arithmetic used here agrees with the source's binary floating point
on all inputs the claims touch; the numeric value itself is unconstrained by
every claim. -/
def get_pt_from_em (em : String) : Except PyErr Nat :=
  let cs := em.toList.dropLast.dropLast
  match parseDecimal cs with
  | none => .error .valueError
  | some (scaled, d) => .ok (scaled * 1000000 / (83646 * 10 ^ d))

/-! ## Content walker -/

/-- The local flag block at the top of `parse_text_type`. -/
structure TextFlags where
  is_bold : Bool := false
  is_italic : Bool := false
  is_underline : Bool := false
  is_strikethrough : Bool := false
  font_color : Option (Nat × Nat × Nat) := none
  highlight_color : Option String := none
  font_size : Option Nat := none
  is_hyperlink : Bool := false
  url : Option String := none
  deriving DecidableEq, Repr

/-- One iteration of the mark loop of `parse_text_type`: each recognised mark
type updates its flag; unrecognised types and missing attributes are ignored;
colour and size conversions can raise. -/
def text_mark_step (fl : TextFlags) (mark_obj : Mark) : Except PyErr TextFlags :=
  match mark_obj.type with
  | none => .ok fl
  | some t =>
    if t = "strong" then .ok { fl with is_bold := true }
    else if t = "em" then .ok { fl with is_italic := true }
    else if t = "underline" then .ok { fl with is_underline := true }
    else if t = "strikethrough" then .ok { fl with is_strikethrough := true }
    else if t = "font_size" then
      match mark_obj.attrs with
      | some a =>
        match a.size with
        | some s =>
          match get_pt_from_em s with
          | .error e => .error e
          | .ok v => .ok { fl with font_size := some v }
        | none => .ok fl
      | none => .ok fl
    else if t = "font_color" then
      match mark_obj.attrs with
      | some a =>
        match a.color with
        | some c =>
          match get_color_from_hex c with
          | .error e => .error e
          | .ok v => .ok { fl with font_color := some v }
        | none => .ok fl
      | none => .ok fl
    else if t = "highlight" then
      match mark_obj.attrs with
      | some a =>
        match a.color with
        | some hex =>
          match highlight_map.lookup hex with
          | some v => .ok { fl with highlight_color := some v }
          | none => .ok { fl with highlight_color := some "YELLOW" }
        | none => .ok fl
      | none => .ok fl
    else if t = "link" then
      match mark_obj.attrs with
      | some a =>
        match a.href with
        | some u => .ok { fl with is_hyperlink := true, url := some u }
        | none => .ok fl
      | none => .ok fl
    else .ok fl

/-- The whole mark loop of `parse_text_type`. -/
def process_text_marks (marks : Option (List Mark)) : Except PyErr TextFlags :=
  match marks with
  | none => .ok {}
  | some ms => ms.foldlM text_mark_step {}

/-- Embedding of `parse_text_type(content_obj, output)`.  Without a `text`
key the handler computes its flags and returns the accumulator untouched.
With one, it emits a single styled run (a hyperlink run is still a run of the
paragraph in the sink model, carrying its URL) and appends the literal text to
the shadow accumulator. -/
def parse_text_type (content_obj : Node) (st : WState) (output : Option String) :
    Except PyErr (WState × Option String) :=
  match process_text_marks content_obj.marks with
  | .error e => .error e
  | .ok fl0 =>
    match content_obj.text with
    | none => .ok (st, output)
    | some tx =>
      let fl := if fl0.is_hyperlink
        then { fl0 with font_color := some (26, 116, 186), is_underline := true }
        else fl0
      let run : DRun :=
        { text := tx
          bold := fl.is_bold
          italic := fl.is_italic
          underline := fl.is_underline
          strike := fl.is_strikethrough
          font_color := fl.font_color
          highlight_color := fl.highlight_color
          font_size := fl.font_size
          font_name := some (if st.in_code_block then "Courier" else "Helvetica")
          hyperlink := if fl.is_hyperlink then fl.url else none
          background_shade := if st.in_callout then st.callout_bg_color else none }
      match add_run_cur st run with
      | .error e => .error e
      | .ok st' =>
        match pyAdd output tx with
        | .error e => .error e
        | .ok o => .ok (st', some o)

/-- The strikethrough scan at the end of `parse_check_list_item_type`: after
the first run containing the checked-box glyph, every later run is struck;
the matching run itself is left alone. -/
def strike_after_check : List DRun → List DRun :=
  go false
where
  /-- Carry the `is_check_found` flag through the run list. -/
  go : Bool → List DRun → List DRun
  | _, [] => []
  | true, r :: rest => { r with strike := true } :: go true rest
  | false, r :: rest =>
    if r.text.toList.contains '☑' then r :: go true rest else r :: go false rest

/-- Embedding of `parse_heading_type`. -/
def parse_heading_type
    (recurse : List Node → WState → Option String → Except PyErr (WState × Option String))
    (content_obj : Node) (st : WState) (output : Option String) :
    Except PyErr (WState × Option String) :=
  let st1 := add_paragraph st
  let heading_size :=
    match content_obj.attrs with
    | some a =>
      match a.level with
      | some lv =>
        match heading_level_to_size_map.lookup (toString lv) with
        | some sz => sz
        | none => 28
      | none => 28
    | none => 28
  match content_obj.content with
  | some cs =>
    match recurse cs st1 output with
    | .error e => .error e
    | .ok (st2, out2) =>
      match map_runs_cur st2 (fun r => { r with font_size := some heading_size }) with
      | .error e => .error e
      | .ok st3 =>
        match pyAdd out2 "\n" with
        | .error e => .error e
        | .ok o => .ok (st3, some o)
  | none =>
    match pyAdd output "\n" with
    | .error e => .error e
    | .ok o => .ok (st1, some o)

/-- The tail of `parse_paragraph_type` after the target paragraph has been
selected (created, or in a table cell reused): prefixes the active list marker
or redirects into a callout cell, applies the last alignment mark, then
recurses. -/
def parse_paragraph_body
    (recurse : List Node → WState → Option String → Except PyErr (WState × Option String))
    (content_obj : Node) (st1 : WState) (output : Option String) :
    Except PyErr (WState × Option String) :=
    let prefixed : Except PyErr WState :=
      if st1.in_bullet_list_item then
        match add_runs_n st1 { text := INDENT } (st1.bullet_list_level - 1) with
        | .error e => .error e
        | .ok s2 => add_run_cur s2 { text := "• " }
      else if st1.in_ordered_list_item then
        match add_runs_n st1 { text := INDENT } (st1.ordered_list_level - 1) with
        | .error e => .error e
        | .ok s2 =>
          match pyDictGet s2.list_depths s2.ordered_list_level with
          | .error e => .error e
          | .ok d =>
            match get_ordered_list_char s2.ordered_list_level d with
            | .error e => .error e
            | .ok mk => add_run_cur s2 { text := mk ++ " " }
      else if st1.in_check_list_item then
        match add_runs_n st1 { text := INDENT } (st1.check_list_level - 1) with
        | .error e => .error e
        | .ok s2 =>
          add_run_cur s2 { text := if s2.is_check_list_item_checked then "☑ " else "☐ " }
      else if st1.in_callout then
        -- A fresh single-cell table shaded with the callout colour; its cell
        -- paragraph becomes current (the cell's implicit empty first paragraph
        -- is not materialised in the flattened sink).
        let s2 := { st1 with
          paragraphs := st1.paragraphs ++ [({ cell_shade := st1.callout_bg_color } : Para)]
          cur := some st1.paragraphs.length }
        match s2.callout_emoji with
        | none => .error .typeError
        | some emo => add_run_cur s2 { text := " " ++ emo ++ "  " }
      else .ok st1
    match prefixed with
    | .error e => .error e
    | .ok st2 =>
      let al : Align :=
        match content_obj.marks with
        | none => .left
        | some ms =>
          ms.foldl (fun acc mark_obj =>
            match mark_obj.type with
            | none => acc
            | some t =>
              if t = "alignment" then
                match mark_obj.attrs with
                | some a =>
                  match a.alignment with
                  | some s =>
                    if s = "center" then .center
                    else if s = "right" then .right
                    else if s = "justify" then .justify
                    else acc
                  | none => acc
                | none => acc
              else acc) Align.left
      match set_alignment_cur st2 al with
      | .error e => .error e
      | .ok st3 =>
        match content_obj.content with
        | some cs =>
          match recurse cs st3 output with
          | .error e => .error e
          | .ok (st4, out4) =>
            match pyAdd out4 "\n" with
            | .error e => .error e
            | .ok o => .ok (st4, some o)
        | none =>
          match pyAdd output "\n" with
          | .error e => .error e
          | .ok o => .ok (st3, some o)

/-- Embedding of `parse_paragraph_type`, chaining the paragraph-selection step
with the body above. -/
def parse_paragraph_type
    (recurse : List Node → WState → Option String → Except PyErr (WState × Option String))
    (content_obj : Node) (st : WState) (output : Option String) :
    Except PyErr (WState × Option String) :=
  let stepA : Except PyErr WState :=
    if st.use_table_cell_paragraph then
      match st.current_table_cell with
      | none => .error .attributeError
      | some i => .ok { st with cur := some i, use_table_cell_paragraph := false }
    else
      .ok (add_paragraph st)
  match stepA with
  | .error e => .error e
  | .ok st1 => parse_paragraph_body recurse content_obj st1 output

/-- Embedding of `parse_bullet_list_type`: set the shared list kind, increment
the bullet nesting counter, recurse, decrement.  When the `content` key is
absent the handler returns before the decrement, exactly as the source does. -/
def parse_bullet_list_type
    (recurse : List Node → WState → Option String → Except PyErr (WState × Option String))
    (content_obj : Node) (st : WState) (output : Option String) :
    Except PyErr (WState × Option String) :=
  let st1 := { st with list_type := some "bullet", bullet_list_level := st.bullet_list_level + 1 }
  match content_obj.content with
  | some cs =>
    match recurse cs st1 output with
    | .error e => .error e
    | .ok (st2, out2) =>
      .ok ({ st2 with bullet_list_level := st2.bullet_list_level - 1 }, out2)
  | none => .ok (st1, output)

/-- Embedding of `parse_ordered_list_type`: additionally resets the per-depth
running item counter for the newly entered depth to zero. -/
def parse_ordered_list_type
    (recurse : List Node → WState → Option String → Except PyErr (WState × Option String))
    (content_obj : Node) (st : WState) (output : Option String) :
    Except PyErr (WState × Option String) :=
  let lvl := st.ordered_list_level + 1
  let st1 := { st with
    list_type := some "ordered"
    ordered_list_level := lvl
    list_depths := pyDictSet st.list_depths lvl 0 }
  match content_obj.content with
  | some cs =>
    match recurse cs st1 output with
    | .error e => .error e
    | .ok (st2, out2) =>
      .ok ({ st2 with ordered_list_level := st2.ordered_list_level - 1 }, out2)
  | none => .ok (st1, output)

/-- Embedding of `parse_check_list_type`. -/
def parse_check_list_type
    (recurse : List Node → WState → Option String → Except PyErr (WState × Option String))
    (content_obj : Node) (st : WState) (output : Option String) :
    Except PyErr (WState × Option String) :=
  let st1 := { st with list_type := some "check", check_list_level := st.check_list_level + 1 }
  match content_obj.content with
  | some cs =>
    match recurse cs st1 output with
    | .error e => .error e
    | .ok (st2, out2) =>
      .ok ({ st2 with check_list_level := st2.check_list_level - 1 }, out2)
  | none => .ok (st1, output)

/-- The tail of `parse_list_item_type` after the ordered-depth counter bump:
content permitting, write the shadow marker of the active list kind and
recurse with the item flag set. -/
def parse_list_item_body
    (recurse : List Node → WState → Option String → Except PyErr (WState × Option String))
    (content_obj : Node) (st1 : WState) (output : Option String) :
    Except PyErr (WState × Option String) :=
    match content_obj.content with
    | none => .ok (st1, output)
    | some cs =>
      let padded : Except PyErr (WState × Option String) :=
        if st1.list_type = some "bullet" then
          match pyAdd output (repeatStr "  " st1.bullet_list_level ++ "- ") with
          | .error e => .error e
          | .ok o => .ok ({ st1 with in_bullet_list_item := true }, some o)
        else if st1.list_type = some "ordered" then
          match pyDictGet st1.list_depths st1.ordered_list_level with
          | .error e => .error e
          | .ok d =>
            match get_ordered_list_char st1.ordered_list_level d with
            | .error e => .error e
            | .ok mk =>
              match pyAdd output (repeatStr "  " st1.ordered_list_level ++ mk ++ " ") with
              | .error e => .error e
              | .ok o => .ok ({ st1 with in_ordered_list_item := true }, some o)
        else .ok (st1, output)
      match padded with
      | .error e => .error e
      | .ok (st2, out2) =>
        match recurse cs st2 out2 with
        | .error e => .error e
        | .ok (st3, out3) =>
          .ok ({ st3 with in_bullet_list_item := false, in_ordered_list_item := false }, out3)

/-- Embedding of `parse_list_item_type`: for an ordered item, first bump the
running counter of the current ordered depth; then continue with the body
above. -/
def parse_list_item_type
    (recurse : List Node → WState → Option String → Except PyErr (WState × Option String))
    (content_obj : Node) (st : WState) (output : Option String) :
    Except PyErr (WState × Option String) :=
  let stepA : Except PyErr WState :=
    if st.list_type = some "ordered" then
      match pyDictGet st.list_depths st.ordered_list_level with
      | .error e => .error e
      | .ok d =>
        .ok { st with list_depths := pyDictSet st.list_depths st.ordered_list_level (d + 1) }
    else .ok st
  match stepA with
  | .error e => .error e
  | .ok st1 => parse_list_item_body recurse content_obj st1 output

/-- Embedding of `parse_check_list_item_type`: record the explicit checked
attribute (the flag is sticky when the attribute is absent), write the shadow
glyph, recurse with the item flag set, then retroactively strike every run of
the current paragraph after the first run containing the checked glyph. -/
def parse_check_list_item_type
    (recurse : List Node → WState → Option String → Except PyErr (WState × Option String))
    (content_obj : Node) (st : WState) (output : Option String) :
    Except PyErr (WState × Option String) :=
  let st0 :=
    match content_obj.attrs with
    | some a =>
      match a.checked with
      | some b => { st with is_check_list_item_checked := b }
      | none => st
    | none => st
  match content_obj.content with
  | none => .ok (st0, output)
  | some cs =>
    match pyAdd output (repeatStr "  " st0.check_list_level ++
        (if st0.is_check_list_item_checked then "☑ " else "☐ ")) with
    | .error e => .error e
    | .ok o1 =>
      match recurse cs { st0 with in_check_list_item := true } (some o1) with
      | .error e => .error e
      | .ok (st1, out1) =>
        let st2 := { st1 with in_check_list_item := false }
        if st2.is_check_list_item_checked then
          match st2.cur with
          | none => .error .attributeError
          | some i =>
            match st2.paragraphs.get? i with
            | none => .error .indexError
            | some p =>
              if p.runs.length > 1 then
                .ok ({ st2 with
                  paragraphs := st2.paragraphs.set i { p with runs := strike_after_check p.runs } },
                  out1)
              else .ok (st2, out1)
        else .ok (st2, out1)

/-- Embedding of `parse_image_type`: with a resolvable file name, embed a
picture (document level appends a picture paragraph without moving the cursor;
table-cell level adds a picture run to the current paragraph); with an
unresolvable name, add the literal placeholder run.  When `attrs` or
`attrs.fileName` is missing the source function falls off its end and returns
Python `None` instead of the accumulator — modelled by the `none` accumulator,
whose next concatenation raises TypeError. -/
def parse_image_type (content_obj : Node) (st : WState) (output : Option String) :
    Except PyErr (WState × Option String) :=
  match content_obj.attrs with
  | none => .ok (st, none)
  | some a =>
    match a.fileName with
    | none => .ok (st, none)
    | some image_file_name =>
      let afterEmbed : Except PyErr WState :=
        match st.image_lookup.lookup image_file_name with
        | some image_file_path =>
          match st.current_table_cell with
          | none =>
            .ok { st with
              paragraphs := st.paragraphs ++ [({ runs := [{ picture := some image_file_path }] } : Para)] }
          | some _ => add_run_cur st { picture := some image_file_path }
        | none => add_run_cur st { text := "MISSING IMAGE: " ++ image_file_name }
      match afterEmbed with
      | .error e => .error e
      | .ok st1 =>
        match pyAdd output ("image: " ++ image_file_name) with
        | .error e => .error e
        | .ok o => .ok (st1, some o)

/-- Embedding of `parse_horizontal_rule_type`. -/
def parse_horizontal_rule_type (content_obj : Node) (st : WState) (output : Option String) :
    Except PyErr (WState × Option String) :=
  let _ := content_obj
  let st1 := if st.cur = none then add_paragraph st else st
  match set_bottom_border_cur st1 with
  | .error e => .error e
  | .ok st2 =>
    match pyAdd output "\n----------\n" with
    | .error e => .error e
    | .ok o => .ok (st2, some o)

/-- Embedding of `parse_call_out_box`: set the callout context (emoji defaults
to the empty string; the background colour keeps its previous value when the
attribute is absent and is never restored on exit), recurse, clear the flag.
Without a `content` key the flag is left set, as in the source. -/
def parse_call_out_box
    (recurse : List Node → WState → Option String → Except PyErr (WState × Option String))
    (content_obj : Node) (st : WState) (output : Option String) :
    Except PyErr (WState × Option String) :=
  let st1 := { st with in_callout := true, callout_emoji := some "" }
  let st2 :=
    match content_obj.attrs with
    | some a =>
      let sA :=
        match a.backgroundColor with
        | some bg => { st1 with callout_bg_color := some (String.mk (bg.toList.drop 1)) }
        | none => st1
      match a.emoji with
      | some emo => { sA with callout_emoji := some emo }
      | none => sA
    | none => st1
  match content_obj.content with
  | none => .ok (st2, output)
  | some cs =>
    match st2.callout_emoji with
    | none => .error .typeError
    | some emo =>
      match pyAdd output (emo ++ " ") with
      | .error e => .error e
      | .ok o1 =>
        match recurse cs st2 (some o1) with
        | .error e => .error e
        | .ok (st3, out3) =>
          match pyAdd out3 "\n" with
          | .error e => .error e
          | .ok o4 => .ok ({ st3 with in_callout := false }, some o4)

/-- Embedding of `parse_code_block`: a single-cell shaded table whose cell
paragraph becomes current, monospace context while recursing.  Without a
`content` key the flag is left set, as in the source. -/
def parse_code_block
    (recurse : List Node → WState → Option String → Except PyErr (WState × Option String))
    (content_obj : Node) (st : WState) (output : Option String) :
    Except PyErr (WState × Option String) :=
  let st1 := { st with
    in_code_block := true
    paragraphs := st.paragraphs ++ [({ cell_shade := some "ccdff7" } : Para)]
    cur := some st.paragraphs.length }
  match content_obj.content with
  | none => .ok (st1, output)
  | some cs =>
    match recurse cs st1 output with
    | .error e => .error e
    | .ok (st2, out2) =>
      match pyAdd out2 "\n" with
      | .error e => .error e
      | .ok o => .ok ({ st2 with in_code_block := false }, some o)

/-- Embedding of `parse_blockquote`: a structural passthrough.  The source's
`in_code_block = False` line assigns a function-local variable (there is no
`global` declaration in that function), so the shared flag is untouched. -/
def parse_blockquote
    (recurse : List Node → WState → Option String → Except PyErr (WState × Option String))
    (content_obj : Node) (st : WState) (output : Option String) :
    Except PyErr (WState × Option String) :=
  match content_obj.content with
  | none => .ok (st, output)
  | some cs =>
    match recurse cs st output with
    | .error e => .error e
    | .ok (st1, out1) =>
      match pyAdd out1 "\n" with
      | .error e => .error e
      | .ok o => .ok (st1, some o)

/-- The loop body of `parse_contents`: walk the sibling list, dispatching each
child that has a `type` key through the given node parser and threading state
and shadow accumulator. -/
def run_contents
    (pc : Node → String → WState → Option String → Except PyErr (WState × Option String)) :
    List Node → WState → Option String → Except PyErr (WState × Option String)
  | [], st, output => .ok (st, output)
  | content_obj :: rest, st, output =>
    match content_obj.type with
    | none => run_contents pc rest st output
    | some t =>
      match pc content_obj t st output with
      | .error e => .error e
      | .ok (st', out') => run_contents pc rest st' out'

/-- Embedding of `parse_content_type(content_obj, type, output)`: the dispatch
table of the walker.  Recursion depth is bounded by the fuel (one unit per
tree level; sibling lists are free), so any fuel at least the tree height
reproduces the source.  The `table` arm enters the table machinery, which is
modelled by the standalone geometry functions above rather than by the walker;
it is marked with a distinguished error so that every theorem about successful
walks automatically concerns table-free content. -/
def parse_content_type :
    Nat → Node → String → WState → Option String → Except PyErr (WState × Option String)
  | 0, _, _, _, _ => .error .fuelExhausted
  | fuel + 1, content_obj, type, st, output =>
    let recurse := run_contents (parse_content_type fuel)
    if type = "heading" then parse_heading_type recurse content_obj st output
    else if type = "paragraph" then parse_paragraph_type recurse content_obj st output
    else if type = "text" then parse_text_type content_obj st output
    else if type = "bullet_list" then parse_bullet_list_type recurse content_obj st output
    else if type = "ordered_list" then parse_ordered_list_type recurse content_obj st output
    else if type = "check_list" then parse_check_list_type recurse content_obj st output
    else if type = "list_item" then parse_list_item_type recurse content_obj st output
    else if type = "check_list_item" then parse_check_list_item_type recurse content_obj st output
    else if type = "image" then parse_image_type content_obj st output
    else if type = "table" then .error .tableUnmodelled
    else if type = "horizontal_rule" then parse_horizontal_rule_type content_obj st output
    else if type = "call_out_box" then parse_call_out_box recurse content_obj st output
    else if type = "code_block" then parse_code_block recurse content_obj st output
    else if type = "blockquote" then parse_blockquote recurse content_obj st output
    else .ok (st, output)

/-- Embedding of `parse_contents(content_objs, output)` at a given fuel. -/
def parse_contents (fuel : Nat) :
    List Node → WState → Option String → Except PyErr (WState × Option String) :=
  run_contents (parse_content_type fuel)

/-- The walker state prepared by `parse_boxnote_json`: a fresh document with
one paragraph holding the title run at 32 points, all context cleared. -/
def init_state (title : String) : WState :=
  { paragraphs := [{ runs := [{ text := title, font_size := some 32 }] }]
    cur := some 0 }

/-! ## Concrete inputs used by the claims -/

/-- A `table_cell` declaration with `colspan=2`. -/
def cellColspan2 : Node := .mk (some "table_cell") (some { colspan := some 2 }) (some []) none none

/-- A plain `table_cell` declaration (no attributes). -/
def cellPlain : Node := .mk (some "table_cell") none (some []) none none

/-- The 2×2 table of the specification's geometry test: a single first-row
cell spanning both columns, and two plain second-row cells. -/
def tableC3 : Node :=
  .mk (some "table") none
    (some [.mk (some "table_row") none (some [cellColspan2]) none none,
           .mk (some "table_row") none (some [cellPlain, cellPlain]) none none]) none none

/-- A plain text node carrying only its literal text. -/
def textNode (s : String) : Node := .mk (some "text") none none (some s) none

/-- A paragraph node wrapping the given children. -/
def paraNode (cs : List Node) : Node := .mk (some "paragraph") none (some cs) none none

/-- A check-list item with an explicit `checked` attribute and the given
children. -/
def checkItem (b : Bool) (cs : List Node) : Node :=
  .mk (some "check_list_item") (some { checked := some b }) (some cs) none none

/-- An image node with no `attrs` mapping at all. -/
def imageNodeNoAttrs : Node := .mk (some "image") none none none none

/-- The empty paragraph (used as a lookup default in statements). -/
def emptyPara : Para := {}

/-- A bullet-list container node without a `content` key. -/
def bulletNoContent : Node := .mk (some "bullet_list") none none none none

/-- A list item whose `content` key is present but empty. -/
def item0 : Node := .mk (some "list_item") none (some []) none none

/-- An ordered-list container with the given items. -/
def olist (items : List Node) : Node := .mk (some "ordered_list") none (some items) none none

/-! ## Claim C1: ordinal markers -/

/-- Claim C1 (counterexample at the failing input): the depth-mod-3 cycle and
the examples marker(2,1)="a.", marker(2,27)="aa." hold, but the alphabetic
branch is plain base 26, not bijective base 26: at depth 2, position 26 the
code emits "a`." — the digit 0 becomes `chr(96)`, a backtick, not a letter —
instead of the "z." the claim requires. -/
theorem get_ordered_list_char_alpha_digit_zero :
    get_ordered_list_char 2 1 = .ok "a." ∧
    get_ordered_list_char 2 27 = .ok "aa." ∧
    get_ordered_list_char 1 3 = .ok "3." ∧
    get_ordered_list_char 3 3 = .ok "iii." ∧
    get_ordered_list_char 2 26 = .ok "a`." ∧
    get_ordered_list_char 2 26 ≠ .ok "z." := by decide

/-! ## Claim C2: table dimensions -/

/-- Specification-level column contribution of one first-row child: the
declared `colspan` when typed `table_cell` with the attribute present, and 0
otherwise — not the claimed default of 1. -/
def colspanContrib (row_obj : Node) : Nat :=
  match row_obj.type, row_obj.attrs with
  | some t, some a => if t = "table_cell" then a.colspan.getD 0 else 0
  | _, _ => 0

/-- The fold step adds exactly the per-cell contribution. -/
lemma dims_cols_step_eq (acc : Nat) (c : Node) :
    dims_cols_step acc c = acc + colspanContrib c := by
  unfold dims_cols_step colspanContrib
  rcases c with ⟨t, a, _, _, _⟩
  rcases t with _ | t <;> rcases a with _ | a <;> simp [Node.type, Node.attrs]
  rcases a with ⟨_, _, _, _, cs, _, _⟩
  split <;> rcases cs with _ | v <;> simp [Option.getD]

/-- The whole fold computes the sum of per-cell contributions. -/
lemma dims_cols_foldl (cells : List Node) : ∀ n : Nat,
    cells.foldl dims_cols_step n = n + (cells.map colspanContrib).sum := by
  induction cells with
  | nil => intro n; simp
  | cons c rest ih =>
    intro n
    simp only [List.foldl_cons, List.map_cons, List.sum_cons, dims_cols_step_eq]
    rw [ih]
    omega

/-- Claim C2 counterexample: a 1×1 table whose only cell has no `attrs` (hence
no `colspan`) is reported with 0 columns, not the 1 column the claimed default
would give. -/
theorem get_table_dimensions_missing_colspan_not_one :
    get_table_dimensions (.mk (some "table") none
      (some [.mk (some "table_row") none (some [cellPlain]) none none]) none none) = .ok (1, 0) ∧
    get_table_dimensions (.mk (some "table") none
      (some [.mk (some "table_row") none (some [cellPlain]) none none]) none none) ≠
      .ok (1, 1) := by decide

/-- Claim C2 (amended): for every table node with at least one child row, the
resolver reports the number of children as the row count, and as the column
count the sum over the first row's children of their `colspan`, where a child
that is not typed `table_cell`, or has no `attrs` mapping, or no `colspan`
key, contributes 0 (there is no default of 1 in the dimension computation). -/
theorem get_table_dimensions_characterisation (t row0 : Node) (rows cells : List Node)
    (hc : t.content = some (row0 :: rows)) (h0 : row0.content = some cells) :
    get_table_dimensions t = .ok ((row0 :: rows).length, (cells.map colspanContrib).sum) := by
  rcases t with ⟨tt, ta, tc, ttx, tm⟩
  simp only [Node.content] at hc
  subst hc
  rcases row0 with ⟨rt, ra, rc, rtx, rm⟩
  simp only [Node.content] at h0
  subst h0
  simp [get_table_dimensions, Node.content, dims_cols_foldl]

/-- Witness instantiating the amended dimension characterisation on the 2×2
example table. -/
theorem get_table_dimensions_characterisation_witness :
    tableC3.content = some [.mk (some "table_row") none (some [cellColspan2]) none none,
      .mk (some "table_row") none (some [cellPlain, cellPlain]) none none] ∧
    get_table_dimensions tableC3 = .ok (2, 2) :=
  ⟨rfl, get_table_dimensions_characterisation tableC3
    (.mk (some "table_row") none (some [cellColspan2]) none none)
    [.mk (some "table_row") none (some [cellPlain, cellPlain]) none none]
    [cellColspan2] rfl rfl⟩

/-! ## Claim C3: merge resolution -/

/-- The scan step can only append merges whose span exceeds 1×1. -/
lemma merge_scan_step_merges {st st' : MState} {p : Nat × Nat}
    (h : merge_scan_step st p = .ok st')
    (hI : ∀ m ∈ st.cell_merges, 1 < m.2.1 ∨ 1 < m.2.2) :
    ∀ m ∈ st'.cell_merges, 1 < m.2.1 ∨ 1 < m.2.2 := by
  simp only [merge_scan_step] at h
  by_cases hfree : gridLookup st.cell_tracking p.1 p.2 = true
  · rw [if_pos hfree] at h
    cases h
    exact hI
  · rw [if_neg hfree] at h
    cases hset : setCellE st.cell_tracking p.1 p.2 with
    | error e => simp [hset] at h
    | ok grid1 =>
      simp only [hset] at h
      cases hq : st.queue with
      | nil => simp [hq] at h
      | cons d rest =>
        simp only [hq] at h
        by_cases hspan : rowspanOf d > 1 ∨ colspanOf d > 1
        · rw [if_pos hspan] at h
          cases hmark : markRect grid1 p.1 p.2 (rowspanOf d) (colspanOf d) with
          | error e => simp [hmark] at h
          | ok grid2 =>
            simp only [hmark] at h
            cases h
            intro m hm
            rcases List.mem_append.mp hm with hOld | hNew
            · exact hI m hOld
            · rcases List.mem_singleton.mp hNew with rfl
              exact hspan
        · rw [if_neg hspan] at h
          cases h
          exact hI

/-- Every merge a successful scan reports has a span exceeding 1×1. -/
lemma merges_span_gt_one_aux (ps : List (Nat × Nat)) : ∀ (st res : MState),
    merge_scan st ps = .ok res →
    (∀ m ∈ st.cell_merges, 1 < m.2.1 ∨ 1 < m.2.2) →
    ∀ m ∈ res.cell_merges, 1 < m.2.1 ∨ 1 < m.2.2 := by
  induction ps with
  | nil =>
    intro st res h hI
    cases h
    exact hI
  | cons p rest ih =>
    intro st res h hI
    simp only [merge_scan] at h
    cases hstep : merge_scan_step st p with
    | error e => simp [hstep] at h
    | ok st1 =>
      simp only [hstep] at h
      exact ih st1 res h (merge_scan_step_merges hstep hI)

/-- Claim C3: on the specification's 2×2 example the resolver reports two
columns, assigns the spanning cell origin (0,0) with a single merge
instruction of rowspan 1 and colspan 2, places the two plain cells at (1,0)
and (1,1), and leaves the grid fully tiled with no declaration unconsumed;
moreover merge instructions in general arise exactly from span-exceeding
declarations (every recorded merge has a span exceeding 1×1). -/
theorem table_geometry_colspan2_example :
    get_table_dimensions tableC3 = .ok (2, 2) ∧
    get_table_cell_objs tableC3 = .ok [cellColspan2, cellPlain, cellPlain] ∧
    get_table_cell_merges (get_cell_tracking_table 2 2) [cellColspan2, cellPlain, cellPlain] =
      .ok ⟨[[true, true], [true, true]], [], [((0, 0), (1, 2))], [(0, 0), (1, 0), (1, 1)]⟩ ∧
    (∀ (ct : Grid) (objs : List Node) (res : MState),
      get_table_cell_merges ct objs = .ok res →
      ∀ m ∈ res.cell_merges, 1 < m.2.1 ∨ 1 < m.2.2) :=
  ⟨rfl, rfl, rfl, fun _ _ res h =>
    merges_span_gt_one_aux _ _ res h (fun m hm => absurd hm (List.not_mem_nil m))⟩

/-! ## Claim C4: exhausted declaration queue -/

/-- A scan position that is in range and still free in the grid. -/
def freeAt (grid : Grid) (q : Nat × Nat) : Prop :=
  ∃ row, grid.get? q.1 = some row ∧ row.get? q.2 = some false

/-- Setting an existing index makes it readable. -/
lemma get?_set_self {α : Type} {l : List α} {i : Nat} {x : α} (h : l.get? i = some x) (a : α) :
    (l.set i a).get? i = some a := by
  rw [List.get?_eq_getElem?] at h ⊢
  exact List.getElem?_set_self (List.getElem?_eq_some_iff.mp h).1

/-- Setting one index leaves the others unchanged. -/
lemma get?_set_ne {α : Type} {l : List α} {i j : Nat} (a : α) (h : i ≠ j) :
    (l.set i a).get? j = l.get? j := by
  rw [List.get?_eq_getElem?, List.get?_eq_getElem?]
  exact List.getElem?_set_ne h

/-- A free in-range cell reads as free. -/
lemma gridLookup_of_free {grid : Grid} {q : Nat × Nat} (h : freeAt grid q) :
    gridLookup grid q.1 q.2 = false := by
  obtain ⟨row, hr, hb⟩ := h
  rw [List.get?_eq_getElem?] at hr hb
  simp [gridLookup, List.getD, hr, hb]

/-- Marking one cell keeps every other position free. -/
lemma freeAt_set {grid : Grid} {p q : Nat × Nat} {row : List Bool}
    (hr : grid.get? p.1 = some row) (hne : q ≠ p) (hq : freeAt grid q) :
    freeAt (grid.set p.1 (row.set p.2 true)) q := by
  obtain ⟨row2, hr2, hb2⟩ := hq
  by_cases hi : p.1 = q.1
  · have hrow : row2 = row := by
      rw [← hi] at hr2
      rw [hr] at hr2
      exact (Option.some.inj hr2).symm
    subst hrow
    have hj : p.2 ≠ q.2 := by
      intro hc
      exact hne (Prod.ext hi.symm hc.symm)
    refine ⟨row2.set p.2 true, ?_, ?_⟩
    · rw [← hi]
      exact get?_set_self hr _
    · rw [get?_set_ne _ hj]
      exact hb2
  · refine ⟨row2, ?_, hb2⟩
    rw [get?_set_ne _ hi]
    exact hr2

/-- Core of claim C4: scanning positions that are all in range, distinct and
free, with a span-free declaration queue shorter than the position list, pops
the queue dry and raises the pop-from-empty IndexError. -/
lemma merge_scan_exhausts : ∀ (ps : List (Nat × Nat)) (grid : Grid) (q : List Node)
    (ms : List ((Nat × Nat) × (Nat × Nat))) (origins : List (Nat × Nat)),
    (∀ x ∈ ps, freeAt grid x) → ps.Nodup →
    (∀ d ∈ q, d.attrs = none) → q.length < ps.length →
    merge_scan ⟨grid, q, ms, origins⟩ ps = .error .indexError := by
  intro ps
  induction ps with
  | nil =>
    intro grid q ms origins _ _ _ hlen
    exact absurd hlen (Nat.not_lt_zero _)
  | cons p rest ih =>
    intro grid q ms origins hfree hnd hq hlen
    obtain ⟨row, hr, hb⟩ := hfree p (List.mem_cons_self p rest)
    have hlook : gridLookup grid p.1 p.2 = false := gridLookup_of_free ⟨row, hr, hb⟩
    have hrE : grid[p.1]? = some row := by rw [← List.get?_eq_getElem?]; exact hr
    have hbE : row[p.2]? = some false := by rw [← List.get?_eq_getElem?]; exact hb
    cases q with
    | nil =>
      simp [merge_scan, merge_scan_step, hlook, setCellE, hrE, hbE]
    | cons d q2 =>
      have hd := hq d (List.mem_cons_self d q2)
      have hrs : rowspanOf d = 1 := by simp [rowspanOf, hd]
      have hcs : colspanOf d = 1 := by simp [colspanOf, hd]
      have hstep : merge_scan_step ⟨grid, d :: q2, ms, origins⟩ p =
          .ok ⟨grid.set p.1 (row.set p.2 true), q2, ms, origins ++ [p]⟩ := by
        simp [merge_scan_step, hlook, setCellE, hrE, hbE, hrs, hcs]
      have hnd2 := List.nodup_cons.mp hnd
      simp only [merge_scan, hstep]
      refine ih (grid.set p.1 (row.set p.2 true)) q2 ms (origins ++ [p]) ?_ hnd2.2
        (fun x hx => hq x (List.mem_cons_of_mem d hx)) ?_
      · intro x hx
        refine freeAt_set hr ?_ (hfree x (List.mem_cons_of_mem p hx))
        intro hc
        exact hnd2.1 (hc ▸ hx)
      · simpa using Nat.lt_of_succ_lt_succ (by simpa using hlen)

/-- Reading a replicated list inside its range. -/
lemma get?_replicate {α : Type} (x : α) {n i : Nat} (h : i < n) :
    (List.replicate n x).get? i = some x := by
  rw [List.get?_eq_getElem?]
  simp [List.getElem?_replicate, h]

/-- The fallback read agrees with `get?` on present indices. -/
lemma getD_of_get? {α : Type} {l : List α} {i : Nat} {x : α} (d : α) (h : l.get? i = some x) :
    l.getD i d = x := by
  rw [List.get?_eq_getElem?] at h
  simp [List.getD, h]

/-- Every scan position of the fresh tracking grid is in range and free. -/
lemma tracking_positions_free (r c : Nat) :
    ∀ x ∈ gridPositions (get_cell_tracking_table r c), freeAt (get_cell_tracking_table r c) x := by
  intro x hx
  unfold gridPositions at hx
  obtain ⟨i, hi, hx⟩ := List.mem_flatMap.mp hx
  obtain ⟨j, hj, rfl⟩ := List.mem_map.mp hx
  rw [List.mem_range] at hi
  rw [List.mem_range] at hj
  unfold get_cell_tracking_table at hi hj ⊢
  have hrow : (List.replicate r (List.replicate c false)).get? i = some (List.replicate c false) :=
    get?_replicate _ (by simpa using hi)
  have hlen : ((List.replicate r (List.replicate c false)).getD i []).length = c := by
    rw [getD_of_get? [] hrow]
    simp
  refine ⟨List.replicate c false, hrow, get?_replicate _ ?_⟩
  rw [hlen] at hj
  exact hj

/-- The scan positions of any grid are pairwise distinct. -/
lemma gridPositions_nodup (grid : Grid) : (gridPositions grid).Nodup := by
  unfold gridPositions
  rw [List.nodup_flatMap]
  constructor
  · intro i _
    refine List.Nodup.map ?_ (List.nodup_range _)
    intro a b hab
    exact congrArg Prod.snd hab
  · refine List.Pairwise.imp ?_ (List.pairwise_lt_range _)
    intro a b hab x hxa hxb
    obtain ⟨ja, _, rfl⟩ := List.mem_map.mp hxa
    obtain ⟨jb, _, hEq⟩ := List.mem_map.mp hxb
    exact absurd (congrArg Prod.fst hEq) (by simp; omega)

/-- The fresh tracking grid has exactly `r * c` scan positions. -/
lemma gridPositions_tracking_length (r c : Nat) :
    (gridPositions (get_cell_tracking_table r c)).length = r * c := by
  unfold gridPositions get_cell_tracking_table
  rw [List.length_flatMap]
  have hmap : List.map (List.length ∘ fun i =>
        List.map (fun j => (i, j))
          (List.range ((List.replicate r (List.replicate c false)).getD i []).length))
      (List.range (List.replicate r (List.replicate c false)).length) =
      List.map (fun _ => c) (List.range r) := by
    rw [List.length_replicate]
    refine List.map_congr_left ?_
    intro i hi
    rw [List.mem_range] at hi
    show (List.map (fun j => (i, j))
      (List.range ((List.replicate r (List.replicate c false)).getD i []).length)).length = c
    rw [List.length_map, List.length_range, getD_of_get? [] (get?_replicate _ hi),
      List.length_replicate]
  rw [hmap]
  simp

/-- Claim C4: a table whose span-free cell declarations are fewer than the
free slots of its fresh occupancy grid exhausts the declaration queue, and the
resolver fails with the pop-from-empty IndexError (the condition the
specification designates TableCellCountMismatchError), fatally for the
document being converted. -/
theorem get_table_cell_merges_queue_exhausted (r c : Nat) (decls : List Node)
    (hplain : ∀ d ∈ decls, d.attrs = none) (hlt : decls.length < r * c) :
    get_table_cell_merges (get_cell_tracking_table r c) decls = .error .indexError := by
  unfold get_table_cell_merges
  refine merge_scan_exhausts _ _ _ _ _ (tracking_positions_free r c)
    (gridPositions_nodup _) hplain ?_
  rw [gridPositions_tracking_length]
  exact hlt

/-- Witness instantiating the exhausted-queue theorem: three plain cells for a
2×2 grid. -/
theorem get_table_cell_merges_queue_exhausted_witness :
    (∀ d ∈ [cellPlain, cellPlain, cellPlain], d.attrs = none) ∧
    ([cellPlain, cellPlain, cellPlain].length < 2 * 2) ∧
    get_table_cell_merges (get_cell_tracking_table 2 2) [cellPlain, cellPlain, cellPlain] =
      .error .indexError :=
  ⟨by decide, by decide,
    get_table_cell_merges_queue_exhausted 2 2 _ (by decide) (by decide)⟩

/-! ## Claim C5: scoped list nesting counters -/

/-- Characterisation of the text handler used by several claims: a node
without a `text` key changes nothing; a node with one appends exactly one run
and its text. -/
lemma parse_text_type_cases (o : Node) (st : WState) (output : Option String)
    (r : WState × Option String) (h : parse_text_type o st output = .ok r) :
    (o.text = none → r = (st, output)) ∧
    (∀ tx, o.text = some tx →
      ∃ o0 i p rn, output = some o0 ∧ r.2 = some (o0 ++ tx) ∧ st.cur = some i ∧
        st.paragraphs.get? i = some p ∧ rn.text = tx ∧
        r.1 = { st with paragraphs := st.paragraphs.set i { p with runs := p.runs ++ [rn] } }) := by
  rcases o with ⟨ot, oa, oc, otx, om⟩
  simp only [parse_text_type, Node.text, Node.marks] at h
  cases hfl : process_text_marks om with
  | error e => simp [hfl] at h
  | ok fl0 =>
    simp only [hfl] at h
    cases otx with
    | none =>
      cases h
      exact ⟨fun _ => rfl, fun tx htx => nomatch htx⟩
    | some tx0 =>
      refine ⟨(fun hn => nomatch hn), ?_⟩
      intro tx htx
      cases htx
      simp only [add_run_cur] at h
      cases hcur : st.cur with
      | none => simp only [hcur] at h; cases h
      | some i =>
        simp only [hcur] at h
        cases hp : st.paragraphs.get? i with
        | none => simp only [hp] at h; cases h
        | some p =>
          simp only [hp] at h
          cases output with
          | none => simp only [pyAdd] at h; cases h
          | some o0 =>
            simp only [pyAdd] at h
            cases h
            exact ⟨o0, i, p, _, rfl, rfl, rfl, hp, rfl, rfl⟩

/-- Check, down to the given depth, that every list container node in a tree
carries a `content` sequence (possibly empty) — the condition under which the
handlers reach their decrement.  The depth bound mirrors the walker's fuel. -/
def listsWF : Nat → Node → Bool
  | 0, _ => false
  | fuel + 1, Node.mk t a c tx m =>
    (match t with
     | some s =>
       if s = "bullet_list" ∨ s = "ordered_list" ∨ s = "check_list" then c.isSome else true
     | none => true) &&
    (match c with
     | some cs => cs.all (listsWF fuel)
     | none => true)

/-- Children of a well-formed node are well formed one level shallower. -/
lemma listsWF_children {f : Nat} {o : Node} (h : listsWF (f + 1) o = true) {cs : List Node}
    (hc : o.content = some cs) : ∀ x ∈ cs, listsWF f x = true := by
  rcases o with ⟨t, a, c, tx, m⟩
  dsimp only [Node.content] at hc
  subst hc
  simp only [listsWF, Bool.and_eq_true] at h
  rcases h with ⟨-, h2⟩
  exact fun x hx => List.all_eq_true.mp h2 x hx

/-- A well-formed list container carries its `content` key. -/
lemma listsWF_list_content {f : Nat} {o : Node} (h : listsWF (f + 1) o = true) {t : String}
    (ht : o.type = some t)
    (hl : t = "bullet_list" ∨ t = "ordered_list" ∨ t = "check_list") :
    o.content.isSome := by
  rcases o with ⟨t0, a, c, tx, m⟩
  dsimp only [Node.type] at ht
  subst ht
  simp only [listsWF, Bool.and_eq_true] at h
  rcases h with ⟨h1, -⟩
  rw [if_pos (by simpa using hl)] at h1
  exact h1

/-- The three list nesting counters, bundled. -/
def levels (st : WState) : Nat × Nat × Nat :=
  (st.bullet_list_level, st.ordered_list_level, st.check_list_level)

/-- Appending a paragraph keeps the counters. -/
lemma levels_add_paragraph (st : WState) : levels (add_paragraph st) = levels st := rfl

/-- Adding a run keeps the counters. -/
lemma levels_add_run_cur {st st' : WState} {r : DRun} (h : add_run_cur st r = .ok st') :
    levels st' = levels st := by
  unfold add_run_cur at h
  split at h
  · cases h
  · split at h
    · cases h
    · cases h
      rfl

/-- Adding several runs keeps the counters. -/
lemma levels_add_runs_n {r : DRun} : ∀ (n : Nat) (st st' : WState),
    add_runs_n st r n = .ok st' → levels st' = levels st := by
  intro n
  induction n with
  | zero => intro st st' h; cases h; rfl
  | succ k ih =>
    intro st st' h
    unfold add_runs_n at h
    split at h
    · cases h
    · next st1 heq => exact (ih st1 st' h).trans (levels_add_run_cur heq)

/-- Setting the alignment keeps the counters. -/
lemma levels_set_alignment_cur {st st' : WState} {al : Align}
    (h : set_alignment_cur st al = .ok st') : levels st' = levels st := by
  unfold set_alignment_cur at h
  split at h
  · cases h
  · split at h
    · cases h
    · cases h
      rfl

/-- Restyling the current paragraph's runs keeps the counters. -/
lemma levels_map_runs_cur {st st' : WState} {f : DRun → DRun}
    (h : map_runs_cur st f = .ok st') : levels st' = levels st := by
  unfold map_runs_cur at h
  split at h
  · cases h
  · split at h
    · cases h
    · cases h
      rfl

/-- Adding a bottom border keeps the counters. -/
lemma levels_set_bottom_border_cur {st st' : WState}
    (h : set_bottom_border_cur st = .ok st') : levels st' = levels st := by
  unfold set_bottom_border_cur at h
  split at h
  · cases h
  · split at h
    · cases h
    · cases h
      rfl

/-- The recursion callback preserves the counters on well-formed children. -/
def LevelsRec (P : Node → Prop)
    (recurse : List Node → WState → Option String → Except PyErr (WState × Option String)) :
    Prop :=
  ∀ cs st out st' out', (∀ x ∈ cs, P x) →
    recurse cs st out = .ok (st', out') → levels st' = levels st

/-- The text handler keeps the counters. -/
lemma levels_parse_text_type {o : Node} {st : WState} {out : Option String}
    {st' : WState} {out' : Option String}
    (h : parse_text_type o st out = .ok (st', out')) : levels st' = levels st := by
  have hc := parse_text_type_cases o st out (st', out') h
  cases hotx : o.text with
  | none =>
    have := hc.1 hotx
    cases this
    rfl
  | some tx =>
    obtain ⟨o0, i, p, rn, -, -, -, -, -, hst⟩ := hc.2 tx hotx
    have hst2 : st' = { st with
        paragraphs := st.paragraphs.set i { p with runs := p.runs ++ [rn] } } := hst
    rw [hst2]
    rfl

/-- The image handler keeps the counters. -/
lemma levels_parse_image_type {o : Node} {st : WState} {out : Option String}
    {st' : WState} {out' : Option String}
    (h : parse_image_type o st out = .ok (st', out')) : levels st' = levels st := by
  unfold parse_image_type at h
  cases ha : o.attrs with
  | none => simp only [ha] at h; cases h; rfl
  | some a =>
    simp only [ha] at h
    cases hf : a.fileName with
    | none => simp only [hf] at h; cases h; rfl
    | some name =>
      simp only [hf] at h
      cases hl : st.image_lookup.lookup name with
      | some path =>
        simp only [hl] at h
        cases hct : st.current_table_cell with
        | none =>
          simp only [hct] at h
          split at h
          · cases h
          · cases h; rfl
        | some ci =>
          simp only [hct] at h
          cases har : add_run_cur st { picture := some path } with
          | error e => simp only [har] at h; cases h
          | ok st1 =>
            simp only [har] at h
            split at h
            · cases h
            · cases h
              exact levels_add_run_cur har
      | none =>
        simp only [hl] at h
        cases har : add_run_cur st { text := "MISSING IMAGE: " ++ name } with
        | error e => simp only [har] at h; cases h
        | ok st1 =>
          simp only [har] at h
          split at h
          · cases h
          · cases h
            exact levels_add_run_cur har

/-- The horizontal-rule handler keeps the counters. -/
lemma levels_parse_horizontal_rule_type {o : Node} {st : WState} {out : Option String}
    {st' : WState} {out' : Option String}
    (h : parse_horizontal_rule_type o st out = .ok (st', out')) : levels st' = levels st := by
  unfold parse_horizontal_rule_type at h
  cases hb : set_bottom_border_cur (if st.cur = none then add_paragraph st else st) with
  | error e => simp only [hb] at h; cases h
  | ok st2 =>
    simp only [hb] at h
    split at h
    · cases h
    · cases h
      have h1 := levels_set_bottom_border_cur hb
      by_cases hcn : st.cur = none
      · rw [if_pos hcn] at h1; exact h1
      · rw [if_neg hcn] at h1; exact h1

/-- The sibling loop keeps the counters when the node parser does. -/
lemma levels_run_contents {P : Node → Prop}
    {pc : Node → String → WState → Option String → Except PyErr (WState × Option String)}
    (hpc : ∀ o t st out st' out', P o → o.type = some t →
      pc o t st out = .ok (st', out') → levels st' = levels st) :
    ∀ (l : List Node) (st : WState) (out : Option String) (st' : WState) (out' : Option String),
      (∀ x ∈ l, P x) →
      run_contents pc l st out = .ok (st', out') → levels st' = levels st := by
  intro l
  induction l with
  | nil => intro st out st' out' _ h; cases h; rfl
  | cons x rest ih =>
    intro st out st' out' hwf h
    simp only [run_contents] at h
    cases hx : x.type with
    | none =>
      simp only [hx] at h
      exact ih st out st' out' (fun y hy => hwf y (List.mem_cons_of_mem x hy)) h
    | some t =>
      simp only [hx] at h
      cases hstep : pc x t st out with
      | error e => simp only [hstep] at h; cases h
      | ok r1 =>
        obtain ⟨st1, out1⟩ := r1
        simp only [hstep] at h
        exact (ih st1 out1 st' out' (fun y hy => hwf y (List.mem_cons_of_mem x hy)) h).trans
          (hpc x t st out st1 out1 (hwf x (List.mem_cons_self x rest)) hx hstep)

/-- The heading handler keeps the counters when the recursion does. -/
lemma levels_parse_heading_type
    {recurse : List Node → WState → Option String → Except PyErr (WState × Option String)}
    {o : Node} {st : WState} {out : Option String} {st' : WState} {out' : Option String}
    {P : Node → Prop}
    (hrec : LevelsRec P recurse)
    (hkids : ∀ cs, o.content = some cs → ∀ x ∈ cs, P x)
    (h : parse_heading_type recurse o st out = .ok (st', out')) : levels st' = levels st := by
  unfold parse_heading_type at h
  simp only [] at h
  split at h
  · next cs hc =>
    split at h
    · cases h
    · next st2 out2 hr =>
      split at h
      · cases h
      · next st3 hm =>
        split at h
        · cases h
        · cases h
          have hx := hrec cs _ out st2 out2 (hkids cs hc) hr
          exact (levels_map_runs_cur hm).trans (hx.trans rfl)
  · split at h
    · cases h
    · cases h
      rfl

/-- The paragraph body keeps the counters when the recursion does. -/
lemma levels_parse_paragraph_body
    {recurse : List Node → WState → Option String → Except PyErr (WState × Option String)}
    {o : Node} {st1 : WState} {out : Option String} {st' : WState} {out' : Option String}
    {P : Node → Prop}
    (hrec : LevelsRec P recurse)
    (hkids : ∀ cs, o.content = some cs → ∀ x ∈ cs, P x)
    (h : parse_paragraph_body recurse o st1 out = .ok (st', out')) : levels st' = levels st1 := by
  unfold parse_paragraph_body at h
  simp only [] at h
  split at h
  · cases h
  · next st2 hpre =>
    have h2 : levels st2 = levels st1 := by
      split at hpre
      · split at hpre
        · cases hpre
        · next s2 hA => exact (levels_add_run_cur hpre).trans (levels_add_runs_n _ _ _ hA)
      · split at hpre
        · split at hpre
          · cases hpre
          · next s2 hA =>
            split at hpre
            · cases hpre
            · split at hpre
              · cases hpre
              · exact (levels_add_run_cur hpre).trans (levels_add_runs_n _ _ _ hA)
        · split at hpre
          · split at hpre
            · cases hpre
            · next s2 hA => exact (levels_add_run_cur hpre).trans (levels_add_runs_n _ _ _ hA)
          · split at hpre
            · split at hpre
              · cases hpre
              · exact (levels_add_run_cur hpre).trans rfl
            · cases hpre
              rfl
    split at h
    · cases h
    · next st3 hal =>
      have h3 : levels st3 = levels st2 := levels_set_alignment_cur hal
      split at h
      · next cs hc =>
        split at h
        · cases h
        · next st4 out4 hr =>
          split at h
          · cases h
          · cases h
            exact ((hrec cs st3 out _ _ (hkids cs hc) hr).trans h3).trans h2
      · split at h
        · cases h
        · cases h
          exact h3.trans h2

/-- The paragraph handler keeps the counters when the recursion does. -/
lemma levels_parse_paragraph_type
    {recurse : List Node → WState → Option String → Except PyErr (WState × Option String)}
    {o : Node} {st : WState} {out : Option String} {st' : WState} {out' : Option String}
    {P : Node → Prop}
    (hrec : LevelsRec P recurse)
    (hkids : ∀ cs, o.content = some cs → ∀ x ∈ cs, P x)
    (h : parse_paragraph_type recurse o st out = .ok (st', out')) : levels st' = levels st := by
  unfold parse_paragraph_type at h
  simp only [] at h
  split at h
  · cases h
  · next st1 hstep =>
    have h1 : levels st1 = levels st := by
      split at hstep
      · split at hstep
        · cases hstep
        · cases hstep
          rfl
      · cases hstep
        rfl
    exact (levels_parse_paragraph_body hrec hkids h).trans h1

/-- The bullet-list handler restores the counters when the node carries its
content and the recursion preserves them. -/
lemma levels_parse_bullet_list_type
    {recurse : List Node → WState → Option String → Except PyErr (WState × Option String)}
    {o : Node} {st : WState} {out : Option String} {st' : WState} {out' : Option String}
    {P : Node → Prop}
    (hrec : LevelsRec P recurse)
    (hkids : ∀ cs, o.content = some cs → ∀ x ∈ cs, P x)
    (hcontent : o.content.isSome = true)
    (h : parse_bullet_list_type recurse o st out = .ok (st', out')) : levels st' = levels st := by
  unfold parse_bullet_list_type at h
  simp only [] at h
  split at h
  · next cs hc =>
    split at h
    · cases h
    · next st2 out2 hr =>
      cases h
      have hmid := hrec cs _ out _ _ (hkids cs hc) hr
      simp only [levels, Prod.mk.injEq] at hmid ⊢
      omega
  · next hc =>
    rw [hc] at hcontent
    simp at hcontent

/-- The ordered-list handler restores the counters when the node carries its
content and the recursion preserves them. -/
lemma levels_parse_ordered_list_type
    {recurse : List Node → WState → Option String → Except PyErr (WState × Option String)}
    {o : Node} {st : WState} {out : Option String} {st' : WState} {out' : Option String}
    {P : Node → Prop}
    (hrec : LevelsRec P recurse)
    (hkids : ∀ cs, o.content = some cs → ∀ x ∈ cs, P x)
    (hcontent : o.content.isSome = true)
    (h : parse_ordered_list_type recurse o st out = .ok (st', out')) : levels st' = levels st := by
  unfold parse_ordered_list_type at h
  simp only [] at h
  split at h
  · next cs hc =>
    split at h
    · cases h
    · next st2 out2 hr =>
      cases h
      have hmid := hrec cs _ out _ _ (hkids cs hc) hr
      simp only [levels, Prod.mk.injEq] at hmid ⊢
      omega
  · next hc =>
    rw [hc] at hcontent
    simp at hcontent

/-- The check-list handler restores the counters when the node carries its
content and the recursion preserves them. -/
lemma levels_parse_check_list_type
    {recurse : List Node → WState → Option String → Except PyErr (WState × Option String)}
    {o : Node} {st : WState} {out : Option String} {st' : WState} {out' : Option String}
    {P : Node → Prop}
    (hrec : LevelsRec P recurse)
    (hkids : ∀ cs, o.content = some cs → ∀ x ∈ cs, P x)
    (hcontent : o.content.isSome = true)
    (h : parse_check_list_type recurse o st out = .ok (st', out')) : levels st' = levels st := by
  unfold parse_check_list_type at h
  simp only [] at h
  split at h
  · next cs hc =>
    split at h
    · cases h
    · next st2 out2 hr =>
      cases h
      have hmid := hrec cs _ out _ _ (hkids cs hc) hr
      simp only [levels, Prod.mk.injEq] at hmid ⊢
      omega
  · next hc =>
    rw [hc] at hcontent
    simp at hcontent

/-- The list-item body keeps the counters when the recursion does. -/
lemma levels_parse_list_item_body
    {recurse : List Node → WState → Option String → Except PyErr (WState × Option String)}
    {o : Node} {st1 : WState} {out : Option String} {st' : WState} {out' : Option String}
    {P : Node → Prop}
    (hrec : LevelsRec P recurse)
    (hkids : ∀ cs, o.content = some cs → ∀ x ∈ cs, P x)
    (h : parse_list_item_body recurse o st1 out = .ok (st', out')) : levels st' = levels st1 := by
  unfold parse_list_item_body at h
  simp only [] at h
  split at h
  · cases h
    rfl
  · next cs hc =>
    split at h
    · cases h
    · next st2 out2 hpad =>
      split at h
      · cases h
      · next st3 out3 hr =>
        cases h
        have h2 : levels st2 = levels st1 := by
          split at hpad
          · split at hpad
            · cases hpad
            · cases hpad
              rfl
          · split at hpad
            · split at hpad
              · cases hpad
              · split at hpad
                · cases hpad
                · split at hpad
                  · cases hpad
                  · cases hpad
                    rfl
            · cases hpad
              rfl
        exact (hrec cs st2 out2 _ _ (hkids cs hc) hr).trans h2

/-- The list-item handler keeps the counters when the recursion does. -/
lemma levels_parse_list_item_type
    {recurse : List Node → WState → Option String → Except PyErr (WState × Option String)}
    {o : Node} {st : WState} {out : Option String} {st' : WState} {out' : Option String}
    {P : Node → Prop}
    (hrec : LevelsRec P recurse)
    (hkids : ∀ cs, o.content = some cs → ∀ x ∈ cs, P x)
    (h : parse_list_item_type recurse o st out = .ok (st', out')) : levels st' = levels st := by
  unfold parse_list_item_type at h
  simp only [] at h
  split at h
  · cases h
  · next st1 hstep =>
    have h1 : levels st1 = levels st := by
      split at hstep
      · split at hstep
        · cases hstep
        · cases hstep
          rfl
      · cases hstep
        rfl
    exact (levels_parse_list_item_body hrec hkids h).trans h1

/-- The check-list-item handler keeps the counters when the recursion does. -/
lemma levels_parse_check_list_item_type
    {recurse : List Node → WState → Option String → Except PyErr (WState × Option String)}
    {o : Node} {st : WState} {out : Option String} {st' : WState} {out' : Option String}
    {P : Node → Prop}
    (hrec : LevelsRec P recurse)
    (hkids : ∀ cs, o.content = some cs → ∀ x ∈ cs, P x)
    (h : parse_check_list_item_type recurse o st out = .ok (st', out')) :
    levels st' = levels st := by
  unfold parse_check_list_item_type at h
  simp only [] at h
  split at h
  · cases h
    split
    · split <;> rfl
    · rfl
  · next cs hc =>
    split at h
    · cases h
    · next o1 hadd =>
      split at h
      · cases h
      · next st1 out1 hr =>
        have h1 : levels st1 = levels st := by
          refine (hrec cs _ (some o1) st1 out1 (hkids cs hc) hr).trans ?_
          split
          · split <;> rfl
          · rfl
        split at h
        · split at h
          · cases h
          · next i hcur =>
            split at h
            · cases h
            · next p hp =>
              split at h
              · cases h
                exact h1
              · cases h
                exact h1
        · cases h
          exact h1

/-- The callout handler keeps the counters when the recursion does. -/
lemma levels_parse_call_out_box
    {recurse : List Node → WState → Option String → Except PyErr (WState × Option String)}
    {o : Node} {st : WState} {out : Option String} {st' : WState} {out' : Option String}
    {P : Node → Prop}
    (hrec : LevelsRec P recurse)
    (hkids : ∀ cs, o.content = some cs → ∀ x ∈ cs, P x)
    (h : parse_call_out_box recurse o st out = .ok (st', out')) : levels st' = levels st := by
  unfold parse_call_out_box at h
  simp only [] at h
  split at h
  · cases h
    split
    · split <;> split <;> rfl
    · rfl
  · next cs hc =>
    split at h
    · cases h
    · next emo hemo =>
      split at h
      · cases h
      · next o1 hadd =>
        split at h
        · cases h
        · next st3 out3 hr =>
          split at h
          · cases h
          · cases h
            refine (hrec cs _ (some o1) _ _ (hkids cs hc) hr).trans ?_
            split
            · split <;> split <;> rfl
            · rfl

/-- The code-block handler keeps the counters when the recursion does. -/
lemma levels_parse_code_block
    {recurse : List Node → WState → Option String → Except PyErr (WState × Option String)}
    {o : Node} {st : WState} {out : Option String} {st' : WState} {out' : Option String}
    {P : Node → Prop}
    (hrec : LevelsRec P recurse)
    (hkids : ∀ cs, o.content = some cs → ∀ x ∈ cs, P x)
    (h : parse_code_block recurse o st out = .ok (st', out')) : levels st' = levels st := by
  unfold parse_code_block at h
  simp only [] at h
  split at h
  · cases h
    rfl
  · next cs hc =>
    split at h
    · cases h
    · next st2 out2 hr =>
      split at h
      · cases h
      · cases h
        have hx2 := hrec cs _ out _ _ (hkids cs hc) hr
        exact hx2.trans rfl

/-- The blockquote handler keeps the counters when the recursion does. -/
lemma levels_parse_blockquote
    {recurse : List Node → WState → Option String → Except PyErr (WState × Option String)}
    {o : Node} {st : WState} {out : Option String} {st' : WState} {out' : Option String}
    {P : Node → Prop}
    (hrec : LevelsRec P recurse)
    (hkids : ∀ cs, o.content = some cs → ∀ x ∈ cs, P x)
    (h : parse_blockquote recurse o st out = .ok (st', out')) : levels st' = levels st := by
  unfold parse_blockquote at h
  split at h
  · cases h
    rfl
  · next cs hc =>
    split at h
    · cases h
    · next st1 out1 hr =>
      split at h
      · cases h
      · cases h
        exact hrec cs st out _ _ (hkids cs hc) hr

/-- Any successful walk of a node whose subtree (to the walker's depth) gives
every list container its `content` key preserves the three nesting counters. -/
lemma levels_parse_content_type : ∀ (fuel : Nat) (o : Node) (t : String) (st : WState)
    (out : Option String) (st' : WState) (out' : Option String),
    listsWF fuel o = true → o.type = some t →
    parse_content_type fuel o t st out = .ok (st', out') → levels st' = levels st := by
  intro fuel
  induction fuel with
  | zero =>
    intro o t st out st' out' _ _ h
    cases h
  | succ f ih =>
    intro o t st out st' out' hwf hty h
    have hrec : LevelsRec (fun x => listsWF f x = true) (run_contents (parse_content_type f)) :=
      fun cs st0 out0 st0' out0' hk hr =>
        levels_run_contents
          (fun o2 t2 s2 o2a s2b o2c hw ht hp => ih o2 t2 s2 o2a s2b o2c hw ht hp)
          cs st0 out0 st0' out0' hk hr
    have hkids : ∀ cs, o.content = some cs → ∀ x ∈ cs, listsWF f x = true :=
      fun cs hc => listsWF_children hwf hc
    simp only [parse_content_type] at h
    by_cases hc0 : t = "heading"
    · rw [if_pos hc0] at h
      exact levels_parse_heading_type hrec hkids h
    · rw [if_neg hc0] at h
      by_cases hc1 : t = "paragraph"
      · rw [if_pos hc1] at h
        exact levels_parse_paragraph_type hrec hkids h
      · rw [if_neg hc1] at h
        by_cases hc2 : t = "text"
        · rw [if_pos hc2] at h
          exact levels_parse_text_type h
        · rw [if_neg hc2] at h
          by_cases hq : t = "bullet_list"
          · rw [if_pos hq] at h
            exact levels_parse_bullet_list_type hrec hkids
              (listsWF_list_content hwf (hq ▸ hty) (Or.inl rfl)) h
          · rw [if_neg hq] at h
            by_cases hq : t = "ordered_list"
            · rw [if_pos hq] at h
              exact levels_parse_ordered_list_type hrec hkids
                (listsWF_list_content hwf (hq ▸ hty) (Or.inr (Or.inl rfl))) h
            · rw [if_neg hq] at h
              by_cases hq : t = "check_list"
              · rw [if_pos hq] at h
                exact levels_parse_check_list_type hrec hkids
                  (listsWF_list_content hwf (hq ▸ hty) (Or.inr (Or.inr rfl))) h
              · rw [if_neg hq] at h
                by_cases hc6 : t = "list_item"
                · rw [if_pos hc6] at h
                  exact levels_parse_list_item_type hrec hkids h
                · rw [if_neg hc6] at h
                  by_cases hc7 : t = "check_list_item"
                  · rw [if_pos hc7] at h
                    exact levels_parse_check_list_item_type hrec hkids h
                  · rw [if_neg hc7] at h
                    by_cases hc8 : t = "image"
                    · rw [if_pos hc8] at h
                      exact levels_parse_image_type h
                    · rw [if_neg hc8] at h
                      by_cases hc9 : t = "table"
                      · rw [if_pos hc9] at h
                        cases h
                      · rw [if_neg hc9] at h
                        by_cases hc10 : t = "horizontal_rule"
                        · rw [if_pos hc10] at h
                          exact levels_parse_horizontal_rule_type h
                        · rw [if_neg hc10] at h
                          by_cases hc11 : t = "call_out_box"
                          · rw [if_pos hc11] at h
                            exact levels_parse_call_out_box hrec hkids h
                          · rw [if_neg hc11] at h
                            by_cases hc12 : t = "code_block"
                            · rw [if_pos hc12] at h
                              exact levels_parse_code_block hrec hkids h
                            · rw [if_neg hc12] at h
                              by_cases hc13 : t = "blockquote"
                              · rw [if_pos hc13] at h
                                exact levels_parse_blockquote hrec hkids h
                              · rw [if_neg hc13] at h
                                cases h
                                rfl

/-- The state left behind by a bullet-list node without a `content` key: the
bullet counter stays incremented. -/
def leakedBulletState : WState :=
  { init_state "T" with list_type := some "bullet", bullet_list_level := 1 }

/-- The state after walking an ordered list holding one empty item. -/
def orderedDoneState : WState :=
  { init_state "T" with list_type := some "ordered", list_depths := [(1, 1)] }

/-- Claim C5 counterexample: a bullet-list container without a `content` key
(the source checks `"content" in content_obj.keys()` and returns early)
increments the bullet nesting counter on entry and returns without reaching
the decrement, so the counter is left one higher than before entry. -/
theorem bullet_list_no_content_leaks_counter :
    parse_content_type 2 bulletNoContent "bullet_list" (init_state "T") (some "") =
      .ok (leakedBulletState, some "") ∧
    leakedBulletState.bullet_list_level ≠ (init_state "T").bullet_list_level :=
  ⟨rfl, by decide⟩

/-- Claim C5 (amended): the list container handlers follow the scoped
increment/recurse/decrement discipline whenever the container carries a
`content` sequence — even an empty one.  For any successful walk of a node in
whose subtree (to the walker's depth) every list container carries its
`content` key, all three nesting counters end equal to their values before
entry.  Without the `content` key the handler returns before its decrement,
so the well-formedness hypothesis is needed (see the counterexample). -/
theorem list_counters_scoped (fuel : Nat) (o : Node) (t : String) (st : WState)
    (out : Option String) (st' : WState) (out' : Option String)
    (hwf : listsWF fuel o = true) (hty : o.type = some t)
    (h : parse_content_type fuel o t st out = .ok (st', out')) :
    st'.bullet_list_level = st.bullet_list_level ∧
    st'.ordered_list_level = st.ordered_list_level ∧
    st'.check_list_level = st.check_list_level := by
  have hl := levels_parse_content_type fuel o t st out st' out' hwf hty h
  simp only [levels, Prod.mk.injEq] at hl
  exact hl

/-- Witness instantiating the scoped-counter theorem on an ordered list
holding one empty item: the walk succeeds and all three counters return to
their initial values. -/
theorem list_counters_scoped_witness :
    listsWF 3 (olist [item0]) = true ∧
    (olist [item0]).type = some "ordered_list" ∧
    (orderedDoneState.bullet_list_level = (init_state "T").bullet_list_level ∧
      orderedDoneState.ordered_list_level = (init_state "T").ordered_list_level ∧
      orderedDoneState.check_list_level = (init_state "T").check_list_level) :=
  ⟨by decide, rfl,
    list_counters_scoped 3 (olist [item0]) "ordered_list" (init_state "T") (some "")
      orderedDoneState (some "  1. ") (by decide) rfl rfl⟩

/-! ## Claim C6: per-depth ordinal reset -/

/-- Shadow text contributed by one empty ordered item at depth 1: two-space
indentation, the decimal marker, a trailing space. -/
def itemMarkerStr (n : Nat) : String := "  " ++ (toString n ++ ".") ++ " "

/-- Markers of `k` consecutive empty ordered items whose counter starts at
`d`. -/
def markersRun (d : Nat) : Nat → String
  | 0 => ""
  | k + 1 => itemMarkerStr (d + 1) ++ markersRun (d + 1) k

/-- Reading back a key just written. -/
lemma pyDictGet_set_self (dd : List (Nat × Nat)) (k v : Nat) :
    pyDictGet (pyDictSet dd k v) k = .ok v := by
  induction dd with
  | nil => simp [pyDictSet, pyDictGet]
  | cons kv rest ih =>
    by_cases h : k = kv.1
    · simp [pyDictSet, pyDictGet, h]
    · simp [pyDictSet, pyDictGet, h, ih]

/-- Writing a key twice keeps only the second value. -/
lemma pyDictSet_set_self (dd : List (Nat × Nat)) (k v v' : Nat) :
    pyDictSet (pyDictSet dd k v) k v' = pyDictSet dd k v' := by
  induction dd with
  | nil => simp [pyDictSet]
  | cons kv rest ih =>
    by_cases h : k = kv.1
    · simp [pyDictSet, h]
    · simp [pyDictSet, h, ih]

/-- Dispatch arm of the walker for `list_item` nodes. -/
lemma parse_content_type_list_item (f : Nat) (o : Node) (st : WState) (out : Option String) :
    parse_content_type (f + 1) o "list_item" st out =
      parse_list_item_type (parse_contents f) o st out := rfl

/-- Dispatch arm of the walker for `ordered_list` nodes. -/
lemma parse_content_type_ordered_list (f : Nat) (o : Node) (st : WState) (out : Option String) :
    parse_content_type (f + 1) o "ordered_list" st out =
      parse_ordered_list_type (parse_contents f) o st out := rfl

/-- One empty ordered item at depth 1: the depth-1 counter is bumped and the
decimal marker appended to the shadow text; nothing else changes. -/
lemma parse_list_item_empty_depth1 (f : Nat) (st : WState) (o : String)
    (dd0 : List (Nat × Nat)) (d : Nat)
    (hty : st.list_type = some "ordered") (hlv : st.ordered_list_level = 1)
    (hib : st.in_bullet_list_item = false) (hio : st.in_ordered_list_item = false)
    (hdd : st.list_depths = pyDictSet dd0 1 d) :
    parse_content_type (f + 1) item0 "list_item" st (some o) =
      .ok ({ st with list_depths := pyDictSet dd0 1 (d + 1) },
        some (o ++ itemMarkerStr (d + 1))) := by
  rcases st with ⟨paras, cur, ctc, utcp, lt, ld, bl, ol, cl, ib, io, ic, chk, ico, ce, cbg, icb, il⟩
  dsimp only at hty hlv hib hio hdd
  subst hty hlv hib hio hdd
  rw [parse_content_type_list_item]
  simp [parse_list_item_type, parse_list_item_body, item0, Node.content, Node.type,
    parse_contents, run_contents,
    pyDictGet_set_self, pyDictSet_set_self, get_ordered_list_char, pyAdd,
    repeatStr, itemMarkerStr, String.append_assoc]

/-- A run of `k` empty ordered items at depth 1 bumps the depth-1 counter `k`
times and appends the `k` decimal markers. -/
lemma parse_items_replicate (f : Nat) : ∀ (k : Nat) (st : WState) (o : String)
    (dd0 : List (Nat × Nat)) (d : Nat),
    st.list_type = some "ordered" → st.ordered_list_level = 1 →
    st.in_bullet_list_item = false → st.in_ordered_list_item = false →
    st.list_depths = pyDictSet dd0 1 d →
    parse_contents (f + 1) (List.replicate k item0) st (some o) =
      .ok ({ st with list_depths := pyDictSet dd0 1 (d + k) },
        some (o ++ markersRun d k)) := by
  intro k
  induction k with
  | zero =>
    intro st o dd0 d hty hlv hib hio hdd
    simp [parse_contents, run_contents, markersRun, ← hdd]
  | succ k ih =>
    intro st o dd0 d hty hlv hib hio hdd
    rw [List.replicate_succ]
    have hstep := parse_list_item_empty_depth1 f st o dd0 d hty hlv hib hio hdd
    have hih := ih { st with list_depths := pyDictSet dd0 1 (d + 1) }
      (o ++ itemMarkerStr (d + 1)) dd0 (d + 1) hty hlv hib hio rfl
    show (match parse_content_type (f + 1) item0 "list_item" st (some o) with
      | Except.error e => Except.error e
      | Except.ok (st', out') =>
          run_contents (parse_content_type (f + 1)) (List.replicate k item0) st' out') = _
    rw [hstep]
    show parse_contents (f + 1) (List.replicate k item0)
      { st with list_depths := pyDictSet dd0 1 (d + 1) } (some (o ++ itemMarkerStr (d + 1))) = _
    refine hih.trans ?_
    have harith : d + 1 + k = d + (k + 1) := by omega
    rw [harith, show markersRun d (k + 1) = itemMarkerStr (d + 1) ++ markersRun (d + 1) k from rfl,
      String.append_assoc]

/-- Claim C6: two sibling ordered lists; whatever the length `k` of the first
list, entering the second resets the depth-1 ordinal counter to zero, so its
single item is numbered "1." again (the trailing shadow marker is "  1. ", not
a continuation of the first list's count). -/
theorem ordered_list_depth_resets (k : Nat) :
    parse_contents 3 [olist (List.replicate k item0), olist [item0]] (init_state "T") (some "") =
      .ok ({ init_state "T" with list_type := some "ordered", list_depths := [(1, 1)] },
        some (markersRun 0 k ++ "  1. ")) := by
  have h1 : parse_content_type 3 (olist (List.replicate k item0)) "ordered_list"
      (init_state "T") (some "") =
      .ok ({ init_state "T" with list_type := some "ordered", list_depths := [(1, k)] },
        some (markersRun 0 k)) := by
    rw [parse_content_type_ordered_list]
    simp only [parse_ordered_list_type, olist, Node.content, init_state]
    rw [parse_items_replicate 1 k _ "" [] 0 rfl rfl rfl rfl rfl]
    simp [pyDictSet]
  have h2 : parse_content_type 3 (olist [item0]) "ordered_list"
      ({ init_state "T" with list_type := some "ordered", list_depths := [(1, k)] })
      (some (markersRun 0 k)) =
      .ok ({ init_state "T" with list_type := some "ordered", list_depths := [(1, 1)] },
        some (markersRun 0 k ++ "  1. ")) := by
    rw [parse_content_type_ordered_list]
    simp only [parse_ordered_list_type, olist, Node.content, init_state]
    rw [show ([item0] : List Node) = List.replicate 1 item0 from rfl]
    rw [parse_items_replicate 1 1 _ (markersRun 0 k) [(1, k)] 0 rfl rfl rfl rfl rfl]
    simp [pyDictSet]
    rw [show markersRun 0 1 = "  1. " from rfl]
  show (match parse_content_type 3 (olist (List.replicate k item0)) "ordered_list"
      (init_state "T") (some "") with
    | Except.error e => Except.error e
    | Except.ok (st', out') =>
        run_contents (parse_content_type 3) [olist [item0]] st' out') = _
  rw [h1]
  show (match parse_content_type 3 (olist [item0]) "ordered_list"
      ({ init_state "T" with list_type := some "ordered", list_depths := [(1, k)] })
      (some (markersRun 0 k)) with
    | Except.error e => Except.error e
    | Except.ok (st', out') => run_contents (parse_content_type 3) [] st' out') = _
  rw [h2]
  rfl

/-- Witness instantiating the ordinal-reset theorem with a first list of two
items. -/
theorem ordered_list_depth_resets_witness :
    parse_contents 3 [olist (List.replicate 2 item0), olist [item0]] (init_state "T") (some "") =
      .ok ({ init_state "T" with list_type := some "ordered", list_depths := [(1, 1)] },
        some (markersRun 0 2 ++ "  1. ")) :=
  ordered_list_depth_resets 2

/-! ## Claim C7: checklist strikethrough -/

/-- The checkbox glyph run the paragraph handler emits for a check item. -/
def glyphRun (b : Bool) : DRun := { text := if b then "☑ " else "☐ " }

/-- The run a plain (markless) text node emits outside code blocks and
callouts. -/
def plainRun (s : String) : DRun := { text := s, font_name := some "Helvetica" }

/-- Concatenation of a list of strings. -/
def joinAll : List String → String
  | [] => ""
  | s :: rest => s ++ joinAll rest

/-- Dispatch arm of the walker for `text` nodes. -/
lemma parse_content_type_text (f : Nat) (o : Node) (st : WState) (out : Option String) :
    parse_content_type (f + 1) o "text" st out = parse_text_type o st out := rfl

/-- Dispatch arm of the walker for `paragraph` nodes. -/
lemma parse_content_type_paragraph (f : Nat) (o : Node) (st : WState) (out : Option String) :
    parse_content_type (f + 1) o "paragraph" st out =
      parse_paragraph_type (parse_contents f) o st out := rfl

/-- Dispatch arm of the walker for `check_list_item` nodes. -/
lemma parse_content_type_check_list_item (f : Nat) (o : Node) (st : WState) (out : Option String) :
    parse_content_type (f + 1) o "check_list_item" st out =
      parse_check_list_item_type (parse_contents f) o st out := rfl

/-- Setting an index to the value it already holds changes nothing. -/
lemma set_get?_self {α : Type} : ∀ (l : List α) (i : Nat) (x : α),
    l.get? i = some x → l.set i x = l := by
  intro l
  induction l with
  | nil => intro i x h; cases i <;> exact Option.noConfusion h
  | cons hd tl ih =>
    intro i x h
    cases i with
    | zero =>
      rw [show List.get? (hd :: tl) 0 = some hd from rfl] at h
      cases h
      rfl
    | succ n =>
      rw [show List.get? (hd :: tl) (n + 1) = tl.get? n from rfl] at h
      show hd :: tl.set n x = hd :: tl
      rw [ih n x h]

/-- One plain text node: appends one plain run to the current paragraph and
its text to the shadow accumulator. -/
lemma parse_text_plain (st : WState) (s o : String) (i : Nat) (p : Para)
    (hcur : st.cur = some i) (hp : st.paragraphs.get? i = some p)
    (hcb : st.in_code_block = false) (hco : st.in_callout = false) :
    parse_text_type (textNode s) st (some o) =
      .ok ({ st with paragraphs := st.paragraphs.set i { p with runs := p.runs ++ [plainRun s] } },
        some (o ++ s)) := by
  have hpE : st.paragraphs[i]? = some p := by rw [← List.get?_eq_getElem?]; exact hp
  simp [parse_text_type, textNode, Node.text, Node.marks, process_text_marks,
    add_run_cur, hcur, hp, hpE, hcb, hco, pyAdd, plainRun]

/-- A list of plain text nodes: appends the plain runs in order and the
concatenated text to the shadow accumulator. -/
lemma parse_texts_list : ∀ (ss : List String) (f : Nat) (st : WState) (o : String)
    (i : Nat) (p : Para),
    st.cur = some i → st.paragraphs.get? i = some p →
    st.in_code_block = false → st.in_callout = false →
    parse_contents (f + 1) (ss.map textNode) st (some o) =
      .ok ({ st with
          paragraphs := st.paragraphs.set i { p with runs := p.runs ++ ss.map plainRun } },
        some (o ++ joinAll ss)) := by
  intro ss
  induction ss with
  | nil =>
    intro f st o i p hcur hp hcb hco
    simp [parse_contents, run_contents, joinAll, set_get?_self st.paragraphs i p hp]
  | cons s rest ih =>
    intro f st o i p hcur hp hcb hco
    show (match parse_content_type (f + 1) (textNode s) "text" st (some o) with
      | Except.error e => Except.error e
      | Except.ok (st', out') =>
          run_contents (parse_content_type (f + 1)) (rest.map textNode) st' out') = _
    rw [parse_content_type_text, parse_text_plain st s o i p hcur hp hcb hco]
    show parse_contents (f + 1) (rest.map textNode)
      { st with paragraphs := st.paragraphs.set i { p with runs := p.runs ++ [plainRun s] } }
      (some (o ++ s)) = _
    refine (ih f
      { st with paragraphs := st.paragraphs.set i { p with runs := p.runs ++ [plainRun s] } }
      (o ++ s) i { p with runs := p.runs ++ [plainRun s] } hcur
      (get?_set_self hp _) hcb hco).trans ?_
    simp [List.set_set, joinAll, String.append_assoc]

/-- After the glyph run is found, the scan strikes every remaining run. -/
lemma strike_go_true : ∀ rs : List DRun,
    strike_after_check.go true rs = rs.map fun r => { r with strike := true } := by
  intro rs
  induction rs with
  | nil => rfl
  | cons r rest ih => simp [strike_after_check.go, ih]

/-- Claim C7: a check-list item holding one paragraph of plain text runs; when
the checked attribute is true every run after the checkbox-glyph run is marked
strikethrough (the glyph run itself is not), and when it is false no run is
struck by this step. -/
theorem check_list_item_strike (ss : List String) (hne : ss ≠ []) :
    parse_content_type 3 (checkItem true [paraNode (ss.map textNode)]) "check_list_item"
      (init_state "T") (some "") =
      .ok ({ init_state "T" with
          paragraphs := (init_state "T").paragraphs ++
            [{ runs := glyphRun true :: ss.map fun s => { plainRun s with strike := true } }],
          cur := some 1,
          is_check_list_item_checked := true },
        some ("☑ " ++ (joinAll ss ++ "\n"))) ∧
    parse_content_type 3 (checkItem false [paraNode (ss.map textNode)]) "check_list_item"
      (init_state "T") (some "") =
      .ok ({ init_state "T" with
          paragraphs := (init_state "T").paragraphs ++
            [{ runs := glyphRun false :: ss.map plainRun }],
          cur := some 1,
          is_check_list_item_checked := false },
        some ("☐ " ++ (joinAll ss ++ "\n"))) := by
  obtain ⟨s0, rest, rfl⟩ : ∃ s0 rest, ss = s0 :: rest := by
    cases ss with
    | nil => exact absurd rfl hne
    | cons a b => exact ⟨a, b, rfl⟩
  have hparT : parse_content_type 2 (paraNode ((s0 :: rest).map textNode)) "paragraph"
      { init_state "T" with is_check_list_item_checked := true, in_check_list_item := true }
      (some "☑ ") =
      .ok ({ init_state "T" with
          paragraphs := [{ runs := [{ text := "T", font_size := some 32 }] },
            { runs := glyphRun true :: (s0 :: rest).map plainRun }],
          cur := some 1,
          is_check_list_item_checked := true, in_check_list_item := true },
        some ("☑ " ++ (joinAll (s0 :: rest) ++ "\n"))) := by
    show (match parse_contents 1 ((s0 :: rest).map textNode)
        { init_state "T" with
          paragraphs := [{ runs := [{ text := "T", font_size := some 32 }] },
            { runs := [glyphRun true] }],
          cur := some 1,
          is_check_list_item_checked := true, in_check_list_item := true }
        (some "☑ ") with
      | Except.error e => Except.error e
      | Except.ok (st4, out4) =>
        match pyAdd out4 "\n" with
        | Except.error e => Except.error e
        | Except.ok o2 => Except.ok (st4, some o2)) = _
    rw [parse_texts_list (s0 :: rest) 0
      { init_state "T" with
        paragraphs := [{ runs := [{ text := "T", font_size := some 32 }] },
          { runs := [glyphRun true] }],
        cur := some 1,
        is_check_list_item_checked := true, in_check_list_item := true }
      "☑ " 1 { runs := [glyphRun true] } rfl rfl rfl rfl]
    simp [pyAdd, List.set, String.append_assoc]
  have hparF : parse_content_type 2 (paraNode ((s0 :: rest).map textNode)) "paragraph"
      { init_state "T" with is_check_list_item_checked := false, in_check_list_item := true }
      (some "☐ ") =
      .ok ({ init_state "T" with
          paragraphs := [{ runs := [{ text := "T", font_size := some 32 }] },
            { runs := glyphRun false :: (s0 :: rest).map plainRun }],
          cur := some 1,
          is_check_list_item_checked := false, in_check_list_item := true },
        some ("☐ " ++ (joinAll (s0 :: rest) ++ "\n"))) := by
    show (match parse_contents 1 ((s0 :: rest).map textNode)
        { init_state "T" with
          paragraphs := [{ runs := [{ text := "T", font_size := some 32 }] },
            { runs := [glyphRun false] }],
          cur := some 1,
          is_check_list_item_checked := false, in_check_list_item := true }
        (some "☐ ") with
      | Except.error e => Except.error e
      | Except.ok (st4, out4) =>
        match pyAdd out4 "\n" with
        | Except.error e => Except.error e
        | Except.ok o2 => Except.ok (st4, some o2)) = _
    rw [parse_texts_list (s0 :: rest) 0
      { init_state "T" with
        paragraphs := [{ runs := [{ text := "T", font_size := some 32 }] },
          { runs := [glyphRun false] }],
        cur := some 1,
        is_check_list_item_checked := false, in_check_list_item := true }
      "☐ " 1 { runs := [glyphRun false] } rfl rfl rfl rfl]
    simp [pyAdd, List.set, String.append_assoc]
  constructor
  · rw [parse_content_type_check_list_item]
    show (match parse_contents 2 [paraNode ((s0 :: rest).map textNode)]
        { init_state "T" with is_check_list_item_checked := true, in_check_list_item := true }
        (some "☑ ") with
      | Except.error e => Except.error e
      | Except.ok (st1, out1) =>
        let st2 := { st1 with in_check_list_item := false }
        if st2.is_check_list_item_checked then
          match st2.cur with
          | none => Except.error PyErr.attributeError
          | some i =>
            match st2.paragraphs.get? i with
            | none => Except.error PyErr.indexError
            | some p =>
              if p.runs.length > 1 then
                Except.ok ({ st2 with
                  paragraphs := st2.paragraphs.set i { p with runs := strike_after_check p.runs } },
                  out1)
              else Except.ok (st2, out1)
        else Except.ok (st2, out1)) = _
    have h1 : parse_contents 2 [paraNode ((s0 :: rest).map textNode)]
        { init_state "T" with is_check_list_item_checked := true, in_check_list_item := true }
        (some "☑ ") =
        .ok ({ init_state "T" with
            paragraphs := [{ runs := [{ text := "T", font_size := some 32 }] },
              { runs := glyphRun true :: (s0 :: rest).map plainRun }],
            cur := some 1,
            is_check_list_item_checked := true, in_check_list_item := true },
          some ("☑ " ++ (joinAll (s0 :: rest) ++ "\n"))) := by
      show (match parse_content_type 2 (paraNode ((s0 :: rest).map textNode)) "paragraph"
          { init_state "T" with is_check_list_item_checked := true, in_check_list_item := true }
          (some "☑ ") with
        | Except.error e => Except.error e
        | Except.ok (st4, out4) =>
            run_contents (parse_content_type 2) [] st4 out4) = _
      rw [hparT]
      rfl
    rw [h1]
    show (if ((glyphRun true :: (s0 :: rest).map plainRun).length > 1) then _ else _) = _
    rw [if_pos (by simp)]
    simp only [strike_after_check, strike_go_true, List.set, List.map_map]
    simp [glyphRun, strike_after_check.go, strike_go_true, List.map_map, init_state,
      Function.comp]
  · rw [parse_content_type_check_list_item]
    show (match parse_contents 2 [paraNode ((s0 :: rest).map textNode)]
        { init_state "T" with is_check_list_item_checked := false, in_check_list_item := true }
        (some "☐ ") with
      | Except.error e => Except.error e
      | Except.ok (st1, out1) =>
        let st2 := { st1 with in_check_list_item := false }
        if st2.is_check_list_item_checked then
          match st2.cur with
          | none => Except.error PyErr.attributeError
          | some i =>
            match st2.paragraphs.get? i with
            | none => Except.error PyErr.indexError
            | some p =>
              if p.runs.length > 1 then
                Except.ok ({ st2 with
                  paragraphs := st2.paragraphs.set i { p with runs := strike_after_check p.runs } },
                  out1)
              else Except.ok (st2, out1)
        else Except.ok (st2, out1)) = _
    have h1 : parse_contents 2 [paraNode ((s0 :: rest).map textNode)]
        { init_state "T" with is_check_list_item_checked := false, in_check_list_item := true }
        (some "☐ ") =
        .ok ({ init_state "T" with
            paragraphs := [{ runs := [{ text := "T", font_size := some 32 }] },
              { runs := glyphRun false :: (s0 :: rest).map plainRun }],
            cur := some 1,
            is_check_list_item_checked := false, in_check_list_item := true },
          some ("☐ " ++ (joinAll (s0 :: rest) ++ "\n"))) := by
      show (match parse_content_type 2 (paraNode ((s0 :: rest).map textNode)) "paragraph"
          { init_state "T" with is_check_list_item_checked := false, in_check_list_item := true }
          (some "☐ ") with
        | Except.error e => Except.error e
        | Except.ok (st4, out4) =>
            run_contents (parse_content_type 2) [] st4 out4) = _
      rw [hparF]
      rfl
    rw [h1]
    simp [init_state]

/-- Witness instantiating the strikethrough theorem on a one-run item. -/
theorem check_list_item_strike_witness :
    (["x"] : List String) ≠ [] ∧
    parse_content_type 3 (checkItem true [paraNode (["x"].map textNode)]) "check_list_item"
      (init_state "T") (some "") =
      .ok ({ init_state "T" with
          paragraphs := (init_state "T").paragraphs ++
            [{ runs := glyphRun true :: ["x"].map fun s => { plainRun s with strike := true } }],
          cur := some 1,
          is_check_list_item_checked := true },
        some ("☑ " ++ (joinAll ["x"] ++ "\n"))) :=
  ⟨by decide, (check_list_item_strike ["x"] (by decide)).1⟩

/-! ## Claim C8: missing keys and the image handler -/

/-- Claim C8 (counterexample at the failing input): an image node with no
`attrs` mapping does not return the shadow accumulator — the source handler
falls off its end and returns Python `None` (state untouched, accumulator
replaced by `None`), and a subsequent text node then raises TypeError when it
concatenates onto that `None`. -/
theorem parse_image_type_no_attrs_returns_none :
    parse_content_type 2 imageNodeNoAttrs "image" (init_state "T") (some "x") =
      .ok (init_state "T", none) ∧
    parse_contents 2 [imageNodeNoAttrs, textNode "a"] (init_state "T") (some "x") =
      .error .typeError :=
  ⟨rfl, rfl⟩

/-! ## Claim C9: hex colour parsing -/

/-- Claim C9 counterexample: two strings that are not of the 7-character
`#RRGGBB` shape — a 7-character string with no leading hash, and a 6-character
string — are both converted successfully rather than rejected. -/
theorem get_color_from_hex_accepts_malformed :
    get_color_from_hex "0123456" = .ok (18, 52, 86) ∧
    get_color_from_hex "#12345" = .ok (18, 52, 5) := by decide

/-- Claim C9 (amended): the conversion never examines the first character or
the overall length; for any 7-character string whose six characters after the
first are hexadecimal digits it returns the three 8-bit channel values parsed
from the two-digit groups.  It fails — with a plain hex-parse ValueError, the
code defines no MalformedColorError — exactly when one of the slices
`[1:3)`, `[3:5)`, `[5:7)` is empty or contains a non-hex character, so some
strings outside the `#RRGGBB` form are still accepted. -/
theorem get_color_from_hex_characterisation (c0 c1 c2 c3 c4 c5 c6 : Char)
    (d1 d2 d3 d4 d5 d6 : Nat)
    (h1 : hexDigitVal c1 = some d1) (h2 : hexDigitVal c2 = some d2)
    (h3 : hexDigitVal c3 = some d3) (h4 : hexDigitVal c4 = some d4)
    (h5 : hexDigitVal c5 = some d5) (h6 : hexDigitVal c6 = some d6) :
    get_color_from_hex (String.mk [c0, c1, c2, c3, c4, c5, c6]) =
      .ok (d1 * 16 + d2, d3 * 16 + d4, d5 * 16 + d6) := by
  unfold get_color_from_hex pyIntHex
  simp only [String.toList, List.drop, List.take, List.foldl, h1, h2, h3, h4, h5, h6]
  simp only [Nat.zero_mul, Nat.zero_add]
  rfl

/-- Witness instantiating the amended colour characterisation on a well-formed
colour string. -/
theorem get_color_from_hex_characterisation_witness :
    hexDigitVal 'a' = some 10 ∧ hexDigitVal 'c' = some 12 ∧
    get_color_from_hex "#aabbcc" = .ok (170, 187, 204) :=
  ⟨rfl, rfl, get_color_from_hex_characterisation '#' 'a' 'a' 'b' 'b' 'c' 'c'
    10 10 11 11 12 12 rfl rfl rfl rfl rfl rfl⟩

/-! ## Claim C10: text nodes without text -/

/-- Claim C10: whenever the text handler returns normally, a node without a
`text` key — whatever marks it carries — changes neither the document state
nor the shadow accumulator, and a node with a `text` key appends exactly one
run with that literal text to the current paragraph and appends the text to
the shadow accumulator. -/
theorem parse_text_type_only_text_emits (o : Node) (st : WState) (output : Option String)
    (r : WState × Option String) (h : parse_text_type o st output = .ok r) :
    (o.text = none → r = (st, output)) ∧
    (∀ tx, o.text = some tx →
      ∃ o0 i p rn, output = some o0 ∧ r.2 = some (o0 ++ tx) ∧ st.cur = some i ∧
        st.paragraphs.get? i = some p ∧ rn.text = tx ∧
        r.1 = { st with paragraphs := st.paragraphs.set i { p with runs := p.runs ++ [rn] } }) :=
  parse_text_type_cases o st output r h

/-- Witness instantiating the text-node theorem on a markless-text node (with
bold and link marks but no `text` key) and checking that nothing changes. -/
theorem parse_text_type_only_text_emits_witness :
    parse_text_type (Node.mk (some "text") none none none
        (some [{ type := some "strong" },
               { type := some "link", attrs := some { href := some "u" } }]))
      (init_state "T") (some "s") = .ok (init_state "T", some "s") ∧
    ((init_state "T", some "s") : WState × Option String) = (init_state "T", some "s") :=
  ⟨rfl, (parse_text_type_only_text_emits
    (Node.mk (some "text") none none none
      (some [{ type := some "strong" },
             { type := some "link", attrs := some { href := some "u" } }]))
    (init_state "T") (some "s") (init_state "T", some "s") rfl).1 rfl⟩

end Box2Docx

